import Mathlib

/-!
Verification development for the groupbot repository: a shallow embedding of
its balance/policy evaluator, policy-hash grandfathering, Bitcoin message
signature verification chain, and the bot's recheck/enforce member sweeps,
together with theorems settling the specification claims.

Conventions of the embedding:
* byte strings are `List Nat` with each entry < 256 where it matters;
* JavaScript `bigint` is `Int`, JS `string` is `String`;
* code that can throw is modelled with `Option`/`Except`; a `try/catch`
  in the source becomes a `match` on the `Except` value;
* elliptic-curve primitives (public-key recovery, Schnorr/ECDSA verify,
  SHA-256, address derivation from a public key) are opaque parameters
  collected in a `Crypto` structure: every theorem quantifies over them,
  so nothing proved depends on their behaviour beyond what the claim says.
-/

namespace Groupbot

/-! ## Section 1: counterparty.ts - balance aggregation and atomic conversion -/

/-- One balance row as consumed by `reduceBalance`
(`src/lib/counterparty.ts`): `quantity` is the numeric value obtained from
the row (`BigInt(row.quantity)`, a missing quantity giving 0), `divisible`
is `row.asset_info?.divisible` (`none` when `asset_info` or the field is
absent). -/
structure AddressAssetRow where
  quantity : Int
  divisible : Option Bool
deriving Repr, DecidableEq

/-- `reduceBalance(rows)` from `src/lib/counterparty.ts`: sums quantities
into `atomic`; the running `divisible` flag starts at
`rows[0]?.asset_info?.divisible ?? true` and is forced to `false` by any row
with `divisible === false`; decimals is 8 if divisible else 0. -/
def reduceBalance (rows : List AddressAssetRow) : Int × Nat :=
  let init : Bool := ((rows.head?.bind (·.divisible)).getD true)
  let f := rows.foldl
    (fun (acc : Int × Bool) row =>
      (acc.1 + row.quantity, if row.divisible = some false then false else acc.2))
    (0, init)
  (f.1, if f.2 then 8 else 0)

/-- JS `String.prototype.split` with a single-character separator:
splits a character list at every separator, keeping empty segments. -/
def splitChar (sep : Char) : List Char → List (List Char)
  | [] => [[]]
  | c :: rest =>
    let r := splitChar sep rest
    if c = sep then [] :: r
    else (c :: r.headD []) :: r.tail

/-- `normalized.split('.')`. -/
def splitDot (cs : List Char) : List (List Char) :=
  splitChar '.' cs

/-- Numeric value of a list of decimal digit characters
(the value `BigInt` gives a digit string; `[]` gives 0 like `BigInt('')`). -/
def digitsToNat (cs : List Char) : Nat :=
  cs.foldl (fun acc c => acc * 10 + (c.toNat - 48)) 0

/-- JS `BigInt(string)` restricted to the shapes reachable from
`parseToAtomic`: the empty string gives 0, a decimal digit string gives its
value, a leading minus sign is honoured, and anything else throws
(modelled as `none`). -/
def jsBigInt? (s : String) : Option Int :=
  if s.data = [] then some 0
  else if s.data.all Char.isDigit then some (Int.ofNat (digitsToNat s.data))
  else
    match s.data with
    | '-' :: rest =>
      if rest ≠ [] ∧ rest.all Char.isDigit then
        some (-(Int.ofNat (digitsToNat rest)))
      else none
    | _ => none

/-- `parseToAtomic(normalized, decimals)` from `src/lib/counterparty.ts`:
`const [h='0', t=''] = normalized.split('.')`, then
`frac = (t + '0'.repeat(decimals)).slice(0, decimals)` and
`BigInt(h) * BigInt(10 ** decimals) + BigInt(frac || '0')`.
`10 ** decimals` is modelled exactly (the JS double is exact for
`decimals <= 15`, and every call site passes 0 or 8). -/
def parseToAtomic (normalized : String) (decimals : Nat) : Option Int :=
  let parts := splitDot normalized.data
  let h := String.mk ((parts.get? 0).getD ['0'])
  let t := String.mk ((parts.get? 1).getD [])
  let frac := String.mk ((t.data ++ List.replicate decimals '0').take decimals)
  do
    let hv ← jsBigInt? h
    let fv ← jsBigInt? (if frac.data = [] then "0" else frac)
    pure (hv * (10 : Int) ^ decimals + fv)

/-- The pure core of `passesTokenPolicy` (`src/lib/policy.ts`) once the
balance rows have been fetched: aggregate, convert the minimum, compare. -/
def passesTokenPolicyCore (rows : List AddressAssetRow) (minAmount : String) :
    Option Bool :=
  let r := reduceBalance rows
  (parseToAtomic minAmount r.2).map (fun m => decide (r.1 ≥ m))

/-! ## Section 2: policyHash.ts - grandfathering -/

/-- `isGrandfathered(memberPolicyHash, currentPolicyHash)` from
`src/lib/policyHash.ts`. The source guard is `if (!memberPolicyHash)`,
which is JS truthiness: it fires on `null` and also on the empty string,
before the `memberPolicyHash !== currentPolicyHash` comparison. -/
def isGrandfathered (memberPolicyHash : Option String)
    (currentPolicyHash : String) : Bool :=
  match memberPolicyHash with
  | none => true
  | some s => if s.data = [] then true else decide (s ≠ currentPolicyHash)

/-! ## Helper lemmas for Sections 1-2 -/

lemma reduceBalance_foldl_fst (rows : List AddressAssetRow) (a : Int) (b : Bool) :
    (rows.foldl
      (fun (acc : Int × Bool) row =>
        (acc.1 + row.quantity, if row.divisible = some false then false else acc.2))
      (a, b)).1 = a + (rows.map (·.quantity)).sum := by
  induction rows generalizing a b with
  | nil => simp
  | cons r rest ih =>
    simp only [List.foldl_cons, List.map_cons, List.sum_cons, ih]
    ring

lemma reduceBalance_foldl_snd (rows : List AddressAssetRow) (a : Int) (b : Bool) :
    (rows.foldl
      (fun (acc : Int × Bool) row =>
        (acc.1 + row.quantity, if row.divisible = some false then false else acc.2))
      (a, b)).2 = (b && !(rows.any (fun r => r.divisible = some false))) := by
  induction rows generalizing a b with
  | nil => simp
  | cons r rest ih =>
    simp only [List.foldl_cons, List.any_cons, ih]
    by_cases h : r.divisible = some false <;> simp [h]

lemma splitChar_no_sep (sep : Char) (t : List Char) (ht : ∀ c ∈ t, c ≠ sep) :
    splitChar sep t = [t] := by
  induction t with
  | nil => rfl
  | cons c rest ih =>
    have hc : c ≠ sep := ht c (List.mem_cons_self c rest)
    have hr : splitChar sep rest = [rest] :=
      ih (fun x hx => ht x (List.mem_cons_of_mem c hx))
    simp [splitChar, hr, hc]

lemma splitChar_append (sep : Char) (h t : List Char) (hh : ∀ c ∈ h, c ≠ sep) :
    splitChar sep (h ++ sep :: t) = h :: splitChar sep t := by
  induction h with
  | nil => simp [splitChar]
  | cons c rest ih =>
    have hc : c ≠ sep := hh c (List.mem_cons_self c rest)
    have hr := ih (fun x hx => hh x (List.mem_cons_of_mem c hx))
    simp [splitChar, hr, hc]

lemma ne_dot_of_isDigit {c : Char} (hc : c.isDigit = true) : c ≠ '.' := by
  intro h
  subst h
  simp [Char.isDigit] at hc

lemma jsBigInt?_digits (cs : List Char) (hcs : cs.all Char.isDigit = true) :
    jsBigInt? (String.mk cs) = some (Int.ofNat (digitsToNat cs)) := by
  cases cs with
  | nil => simp [jsBigInt?, digitsToNat]
  | cons c rest =>
    simp only [jsBigInt?, String.data]
    rw [if_neg (by simp), if_pos hcs]

/-! ## Claim theorems for Sections 1-2 -/

/-- C5: `toAtomic` (`parseToAtomic`) splits on `.`, right-pads or truncates
the fractional part to exactly `decimals` digits (extra precision
floor-truncated), and returns `integerPart * 10^decimals + fractionalPart`;
in particular `toAtomic("1",8) = 100000000`, `toAtomic("0.00000001",8) = 1`
and `toAtomic("0.123456789",8) = 12345678`. -/
theorem parseToAtomic_spec :
    parseToAtomic "1" 8 = some 100000000 ∧
    parseToAtomic "0.00000001" 8 = some 1 ∧
    parseToAtomic "0.123456789" 8 = some 12345678 ∧
    ∀ (h t : List Char) (d : Nat),
      h.all Char.isDigit = true → t.all Char.isDigit = true →
      parseToAtomic (String.mk (h ++ '.' :: t)) d =
        some ((digitsToNat h : Int) * 10 ^ d +
          (digitsToNat ((t ++ List.replicate d '0').take d) : Int)) := by
  refine ⟨by decide, by decide, by decide, ?_⟩
  intro h t d hh ht
  have hh' : ∀ c ∈ h, c ≠ '.' := by
    intro c hc
    exact ne_dot_of_isDigit (by simpa using (List.all_eq_true.mp hh c hc))
  have ht' : ∀ c ∈ t, c ≠ '.' := by
    intro c hc
    exact ne_dot_of_isDigit (by simpa using (List.all_eq_true.mp ht c hc))
  have hsplit : splitDot (h ++ '.' :: t) = [h, t] := by
    rw [splitDot, splitChar_append '.' h t hh', splitChar_no_sep '.' t ht']
  have hfrac_digits : ((t ++ List.replicate d '0').take d).all Char.isDigit = true := by
    refine List.all_eq_true.mpr ?_
    intro c hc
    have hc' := List.mem_of_mem_take hc
    rcases List.mem_append.mp hc' with h1 | h2
    · exact List.all_eq_true.mp ht c h1
    · have : c = '0' := List.eq_of_mem_replicate h2
      subst this
      decide
  simp only [parseToAtomic, String.data, hsplit]
  have hget0 : ([h, t].get? 0).getD ['0'] = h := rfl
  have hget1 : ([h, t].get? 1).getD [] = t := rfl
  rw [hget0, hget1]
  rw [jsBigInt?_digits h hh]
  by_cases hempty : (String.mk ((t ++ List.replicate d '0').take d)).data = []
  · have he : (t ++ List.replicate d '0').take d = [] := hempty
    rw [if_pos hempty]
    simp only [Option.bind_eq_bind, Option.bind_some]
    have h0 : jsBigInt? "0" = some (Int.ofNat 0) := by decide
    rw [he]
    simp [h0, digitsToNat, Option.bind]
  · rw [if_neg hempty]
    rw [jsBigInt?_digits _ hfrac_digits]
    simp [Option.bind]

/-- The general part of the `toAtomic` characterisation evaluated at
`"12.5"` with one decimal. -/
theorem parseToAtomic_spec_witness :
    parseToAtomic (String.mk (['1', '2'] ++ '.' :: ['5'])) 1 =
      some ((digitsToNat ['1', '2'] : Int) * 10 ^ 1 +
        (digitsToNat (((['5'] : List Char) ++ List.replicate 1 '0').take 1) : Int)) :=
  parseToAtomic_spec.2.2.2 ['1', '2'] ['5'] 1 (by decide) (by decide)

/-- C6: for every list of balance rows, `reduceBalance` returns the sum of
the rows' quantities as the atomic total, with decimals 0 if any
contributing row is marked indivisible (`divisible = false`) and 8
otherwise. -/
theorem reduceBalance_spec (rows : List AddressAssetRow) :
    (reduceBalance rows).1 = (rows.map (·.quantity)).sum ∧
    (reduceBalance rows).2 =
      (if rows.any (fun r => r.divisible = some false) then 0 else 8) := by
  constructor
  · simp only [reduceBalance]
    rw [reduceBalance_foldl_fst rows 0 ((rows.head?.bind (·.divisible)).getD true)]
    ring
  · simp only [reduceBalance, reduceBalance_foldl_snd]
    by_cases hany : rows.any (fun r => r.divisible = some false) = true
    · simp [hany]
    · have hinit : ((rows.head?.bind (·.divisible)).getD true) = true := by
        cases rows with
        | nil => rfl
        | cons r rest =>
          simp only [List.any_cons, Bool.or_eq_true, not_or] at hany
          cases hdiv : r.divisible with
          | none => simp [hdiv]
          | some b =>
            cases b with
            | false => exact absurd (by simp [hdiv]) hany.1
            | true => simp [hdiv]
      simp [hany, hinit]

/-- C4, counterexample: the claim "grandfathered iff the stored hash differs
from the current hash, with a missing (null) hash counting as grandfathered"
fails at the concrete record whose stored hash is the empty string and
current hash is the empty string: the source's truthiness guard
`if (!memberPolicyHash)` treats the empty string like null and reports
grandfathered although the two hashes are equal. -/
theorem isGrandfathered_claim_counterexample :
    ¬ (isGrandfathered (some "") "" = true ↔ (some "" : Option String) ≠ some "") := by
  intro hiff
  exact (hiff.mp rfl) rfl

/-- C4, amended: a member is grandfathered iff the stored policy hash is
missing (null), or is the empty string, or differs from the current policy
hash. -/
theorem isGrandfathered_amended (m : Option String) (H : String) :
    isGrandfathered m H = true ↔ (m = none ∨ m = some "" ∨ m ≠ some H) := by
  cases m with
  | none => simp [isGrandfathered]
  | some s =>
    by_cases hs : s.data = []
    · have hs' : s = "" := by
        cases s
        simp_all
      subst hs'
      simp [isGrandfathered]
    · have hs' : s ≠ "" := by
        intro h
        subst h
        exact hs rfl
      simp only [isGrandfathered, if_neg hs]
      simp [hs']

/-! ## Section 3: byte and text codecs

Concrete models of the encodings the verifier manipulates: UTF-8 bytes of a
string (JS `TextEncoder`), base64 in its two source flavours (`@scure/base`
strict decode, and the forgiving WHATWG `atob`/`btoa` pair used by
`detectAndNormalizeSignature`), and lowercase hex (`@scure/base` `hex`). -/

/-- UTF-8 encoding of one character, from its code point. -/
def utf8EncodeChar (c : Char) : List Nat :=
  let n := c.toNat
  if n < 0x80 then [n]
  else if n < 0x800 then [0xc0 + n / 64, 0x80 + n % 64]
  else if n < 0x10000 then [0xe0 + n / 4096, 0x80 + n / 64 % 64, 0x80 + n % 64]
  else [0xf0 + n / 262144, 0x80 + n / 4096 % 64, 0x80 + n / 64 % 64, 0x80 + n % 64]

/-- JS `new TextEncoder().encode(s)` as a byte list. -/
def utf8Bytes (s : String) : List Nat :=
  s.data.flatMap utf8EncodeChar

/-- Index of a character in the standard base64 alphabet, `none` if absent. -/
def b64Index (c : Char) : Option Nat :=
  if 'A' ≤ c ∧ c ≤ 'Z' then some (c.toNat - 65)
  else if 'a' ≤ c ∧ c ≤ 'z' then some (c.toNat - 97 + 26)
  else if '0' ≤ c ∧ c ≤ '9' then some (c.toNat - 48 + 52)
  else if c = '+' then some 62
  else if c = '/' then some 63
  else none

/-- Character of a 6-bit value in the standard base64 alphabet. -/
def b64Char (n : Nat) : Char :=
  if n < 26 then Char.ofNat (65 + n)
  else if n < 52 then Char.ofNat (97 + (n - 26))
  else if n < 62 then Char.ofNat (48 + (n - 52))
  else if n = 62 then '+'
  else '/'

/-- Canonical padded base64 encoding of a byte list (both JS `btoa` and
`@scure/base` `base64.encode` produce exactly this). -/
def base64EncodeChars : List Nat → List Char
  | [] => []
  | [b1] => [b64Char (b1 / 4), b64Char (b1 % 4 * 16), '=', '=']
  | [b1, b2] =>
    [b64Char (b1 / 4), b64Char (b1 % 4 * 16 + b2 / 16), b64Char (b2 % 16 * 4), '=']
  | b1 :: b2 :: b3 :: rest =>
    b64Char (b1 / 4) :: b64Char (b1 % 4 * 16 + b2 / 16) ::
      b64Char (b2 % 16 * 4 + b3 / 64) :: b64Char (b3 % 64) :: base64EncodeChars rest

/-- JS `btoa` on a byte string (also `base64.encode`). -/
def btoa (bytes : List Nat) : String :=
  String.mk (base64EncodeChars bytes)

/-- Strict base64 decoding of complete 4-character groups, padding allowed
only at the very end; any characters outside the alphabet, misplaced `=`,
or a length not divisible by 4 fail.  Models `@scure/base` `base64.decode`,
which throws on all of those. -/
def base64DecodeQuads : List Char → Option (List Nat)
  | [] => some []
  | [c1, c2, '=', '='] => do
    let n1 ← b64Index c1
    let n2 ← b64Index c2
    pure [n1 * 4 + n2 / 16]
  | [c1, c2, c3, '='] => do
    let n1 ← b64Index c1
    let n2 ← b64Index c2
    let n3 ← b64Index c3
    pure [n1 * 4 + n2 / 16, n2 % 16 * 16 + n3 / 4]
  | c1 :: c2 :: c3 :: c4 :: rest => do
    let n1 ← b64Index c1
    let n2 ← b64Index c2
    let n3 ← b64Index c3
    let n4 ← b64Index c4
    let r ← base64DecodeQuads rest
    pure ((n1 * 4 + n2 / 16) :: (n2 % 16 * 16 + n3 / 4) :: (n3 % 4 * 64 + n4) :: r)
  | _ => none

/-- `base64.decode` from `@scure/base`: strict, `none` models a throw. -/
def base64Decode? (s : String) : Option (List Nat) :=
  base64DecodeQuads s.data

/-- ASCII whitespace stripped by the forgiving-base64 algorithm. -/
def isAsciiWhitespace (c : Char) : Bool :=
  c = ' ' || c = '\t' || c = '\n' || c = '\x0c' || c = '\r'

/-- Forgiving-base64: after whitespace removal, a length divisible by 4 may
shed one or two trailing `=`. -/
def stripB64Pad (d : List Char) : List Char :=
  if d.length % 4 = 0 then
    match d.reverse with
    | '=' :: '=' :: rest => rest.reverse
    | '=' :: rest => rest.reverse
    | _ => d
  else d

/-- Forgiving-base64 main loop: full quads give three bytes; a final group
of two or three characters gives one or two bytes (spare bits dropped); a
final group of one character is an error. -/
def atobCore : List Char → Option (List Nat)
  | [] => some []
  | [c1, c2] => do
    let n1 ← b64Index c1
    let n2 ← b64Index c2
    pure [n1 * 4 + n2 / 16]
  | [c1, c2, c3] => do
    let n1 ← b64Index c1
    let n2 ← b64Index c2
    let n3 ← b64Index c3
    pure [n1 * 4 + n2 / 16, n2 % 16 * 16 + n3 / 4]
  | c1 :: c2 :: c3 :: c4 :: rest => do
    let n1 ← b64Index c1
    let n2 ← b64Index c2
    let n3 ← b64Index c3
    let n4 ← b64Index c4
    let r ← atobCore rest
    pure ((n1 * 4 + n2 / 16) :: (n2 % 16 * 16 + n3 / 4) :: (n3 % 4 * 64 + n4) :: r)
  | _ => none

/-- JS `atob` (WHATWG forgiving-base64); `none` models the thrown
`InvalidCharacterError`. -/
def atob? (s : String) : Option (List Nat) :=
  atobCore (stripB64Pad (s.data.filter (fun c => !isAsciiWhitespace c)))

/-- Hex digit value accepting both cases (the manual `parseInt(_, 16)`
conversion in `detectAndNormalizeSignature`). -/
def hexVal? (c : Char) : Option Nat :=
  if '0' ≤ c ∧ c ≤ '9' then some (c.toNat - 48)
  else if 'a' ≤ c ∧ c ≤ 'f' then some (c.toNat - 97 + 10)
  else if 'A' ≤ c ∧ c ≤ 'F' then some (c.toNat - 65 + 10)
  else none

/-- Whether a character matches `[0-9a-fA-F]`. -/
def isHexChar (c : Char) : Bool :=
  (hexVal? c).isSome

/-- Byte list from pairs of hex characters. -/
def hexPairs? : List Char → Option (List Nat)
  | [] => some []
  | [_] => none
  | c1 :: c2 :: rest => do
    let h ← hexVal? c1
    let l ← hexVal? c2
    let r ← hexPairs? rest
    pure ((h * 16 + l) :: r)

/-- `hex.decode` from `@scure/base`: lowercase alphabet only, even length;
`none` models a throw. -/
def hexDecode? (s : String) : Option (List Nat) :=
  if s.data.all (fun c => ('0' ≤ c ∧ c ≤ '9') ∨ ('a' ≤ c ∧ c ≤ 'f')) then
    hexPairs? s.data
  else none

/-- Lowercase hex character of a 4-bit value. -/
def hexChar (n : Nat) : Char :=
  if n < 10 then Char.ofNat (48 + n) else Char.ofNat (97 + (n - 10))

/-- `hex.encode` from `@scure/base`. -/
def hexEncode (bytes : List Nat) : String :=
  String.mk (bytes.flatMap (fun b => [hexChar (b / 16), hexChar (b % 16)]))

/-- Boolean list-prefix test. -/
def isPrefixB : List Char → List Char → Bool
  | [], _ => true
  | _ :: _, [] => false
  | p :: ps, c :: cs => p = c && isPrefixB ps cs

/-- Whether `pat` occurs as a contiguous substring: JS `String.includes`. -/
def containsSub (pat : List Char) : List Char → Bool
  | [] => pat.isEmpty
  | c :: cs => isPrefixB pat (c :: cs) || containsSub pat cs

/-- JS `s.includes(pat)`. -/
def includesStr (s pat : String) : Bool :=
  containsSub pat.data s.data

/-- JS `s.startsWith(p)`. -/
def jsStartsWith (s p : String) : Bool :=
  isPrefixB p.data s.data

/-- JS `s.endsWith(p)`. -/
def jsEndsWith (s p : String) : Bool :=
  isPrefixB p.data.reverse s.data.reverse

/-- ASCII lowercasing of one character (what JS `toLowerCase` does on the
address alphabets in play). -/
def charLower (c : Char) : Char :=
  if 'A' ≤ c ∧ c ≤ 'Z' then Char.ofNat (c.toNat + 32) else c

/-- JS `s.toLowerCase()`. -/
def jsToLower (s : String) : String :=
  String.mk (s.data.map charLower)

/-- Whitespace removed by JS `String.prototype.trim` (the ASCII part). -/
def isTrimWs (c : Char) : Bool :=
  c = ' ' || c = '\t' || c = '\n' || c = '\r' || c = '\x0c' || c = '\x0b'

/-- JS `s.trim()`. -/
def jsTrim (s : String) : String :=
  String.mk (((s.data.dropWhile isTrimWs).reverse.dropWhile isTrimWs).reverse)

/-- `replace(/\r\n/g, '\n')`: non-overlapping left-to-right. -/
def replaceCRLF : List Char → List Char
  | '\r' :: '\n' :: rest => '\n' :: replaceCRLF rest
  | c :: rest => c :: replaceCRLF rest
  | [] => []

/-- `replace(/\r/g, '\n')`. -/
def replaceCR : List Char → List Char
  | '\r' :: rest => '\n' :: replaceCR rest
  | c :: rest => c :: replaceCR rest
  | [] => []

/-! ## Section 4: verifier/utils.ts -/

/-- Address classification labels shared by both `getAddressType`
implementations (`verifier/types.ts` / `signature.ts`). -/
inductive AddrType
  | P2PKH
  | P2SH
  | P2WPKH
  | P2WSH
  | P2TR
  | Unknown
deriving Repr, DecidableEq

/-- `getAddressType` from `verifier/utils.ts`: prefix classification.  The
source's P2WSH branch repeats the `bc1q`/`tb1q` test already consumed by the
P2WPKH branch and is therefore dead; it is kept here as in the source. -/
def getAddressTypeU (address : String) : AddrType :=
  if jsStartsWith address "1" || jsStartsWith address "m" || jsStartsWith address "n" then
    .P2PKH
  else if jsStartsWith address "3" || jsStartsWith address "2" then
    .P2SH
  else if jsStartsWith address "bc1q" || jsStartsWith address "tb1q" then
    .P2WPKH
  else if (jsStartsWith address "bc1q" || jsStartsWith address "tb1q")
      && address.length > 42 then
    .P2WSH
  else if jsStartsWith address "bc1p" || jsStartsWith address "tb1p" then
    .P2TR
  else
    .Unknown

/-- Address type implied by a BIP-137 header flag
(`parseSignatureFlag` in `verifier/utils.ts`). -/
inductive FlagType
  | P2PKH
  | P2SHP2WPKH
  | P2WPKH
deriving Repr, DecidableEq

/-- Result record of `parseSignatureFlag`. -/
structure ParsedFlag where
  addressType : Option FlagType
  recoveryId : Int
  compressed : Bool
deriving Repr, DecidableEq

/-- `parseSignatureFlag(flag)` from `verifier/utils.ts`. -/
def parseSignatureFlag (flag : Nat) : ParsedFlag :=
  if 27 ≤ flag ∧ flag ≤ 30 then ⟨some .P2PKH, (flag : Int) - 27, false⟩
  else if 31 ≤ flag ∧ flag ≤ 34 then ⟨some .P2PKH, (flag : Int) - 31, true⟩
  else if 35 ≤ flag ∧ flag ≤ 38 then ⟨some .P2SHP2WPKH, (flag : Int) - 35, true⟩
  else if 39 ≤ flag ∧ flag ≤ 42 then ⟨some .P2WPKH, (flag : Int) - 39, true⟩
  else ⟨none, -1, false⟩

/-- Formats distinguished by `detectAndNormalizeSignature`. -/
inductive SigFormat
  | base64
  | hexFormat
  | bip322
  | unknown
deriving Repr, DecidableEq

/-- Result record of `detectAndNormalizeSignature`. -/
structure SigDetection where
  format : SigFormat
  normalized : String
  valid : Bool
  error : Option String
deriving Repr, DecidableEq

/-- `detectAndNormalizeSignature(signature)` from `verifier/utils.ts`:
trim; `tr:`-tagged strings pass through; even-length all-hex strings are
converted to bytes and re-encoded via `btoa`; otherwise `atob`/`btoa`
round-trips to canonical base64, invalid base64 marking the result
invalid. -/
def detectAndNormalizeSignature (signature : String) : SigDetection :=
  let trimmed := jsTrim signature
  if jsStartsWith trimmed "tr:" then
    ⟨.bip322, trimmed, true, none⟩
  else if trimmed.data.length % 2 = 0 ∧ trimmed.data ≠ [] ∧
      trimmed.data.all isHexChar = true then
    match hexPairs? trimmed.data with
    | some bytes => ⟨.hexFormat, btoa bytes, true, none⟩
    | none => ⟨.hexFormat, trimmed, false, some "Invalid hex encoding"⟩
  else
    match atob? trimmed with
    | some decoded => ⟨.base64, btoa decoded, true, none⟩
    | none => ⟨.unknown, trimmed, false, some "Invalid base64 encoding"⟩

/-- `normalizeMessage` from `verifier/utils.ts`: Windows to Unix line
endings only. -/
def normalizeMessageU (message : String) : String :=
  String.mk (replaceCRLF message.data)

/-- Result record of `validateMessage`. -/
structure MessageValidation where
  valid : Bool
  issues : List String
  normalized : Option String
deriving Repr, DecidableEq

/-- `validateMessage(message)` from `verifier/utils.ts`. -/
def validateMessage (message : String) : MessageValidation :=
  if message.data = [] then
    ⟨false, ["Empty message"], none⟩
  else if includesStr message "\r\n" then
    ⟨false, ["Contains Windows line endings (\\r\\n)"],
      some (normalizeMessageU message)⟩
  else if message.length > 65535 then
    ⟨false, ["Message longer than 65535 characters"], none⟩
  else
    ⟨true, [], none⟩

/-- `normalizeMessage` from `messageUtils.ts`: trim, then all line-ending
variants to `\n`. -/
def normalizeMessageMU (message : String) : String :=
  String.mk (replaceCR (replaceCRLF (jsTrim message).data))

/-- `encodeVarInt` (`verifier/utils.ts`), identical to `createVarint`
(`messageUtils.ts`) and `writeCompactSize` (`signature.ts`): Bitcoin
CompactSize with an error thrown above 32 bits. -/
def encodeVarInt (n : Nat) : Except String (List Nat) :=
  if n < 0xfd then .ok [n]
  else if n ≤ 0xffff then .ok [0xfd, n % 256, n / 256 % 256]
  else if n ≤ 0xffffffff then
    .ok [0xfe, n % 256, n / 256 % 256, n / 65536 % 256, n / 16777216 % 256]
  else .error "Number too large for varint encoding"

/-- `formatMessageForSigning` (`verifier/utils.ts` and `messageUtils.ts`):
`\x18Bitcoin Signed Message:\n` magic, CompactSize message length, UTF-8
message bytes. -/
def formatMessageForSigning (message : String) : Except String (List Nat) :=
  let messageBytes := utf8Bytes message
  let magicBytes := utf8Bytes "\x18Bitcoin Signed Message:\n"
  match encodeVarInt messageBytes.length with
  | .error e => Except.error e
  | .ok lenBytes => Except.ok (magicBytes ++ lenBytes ++ messageBytes)

/-- The opaque cryptographic and address-encoding primitives consumed by
the verifiers.  Each field models one external library call:
`sha256` (`@noble/hashes`), `recoverU` is
`recoverPublicKeyFromSignature` (`secp-recovery.ts`, total, `none` on any
failure), `secpRecover` is `secp256k1.recoverPublicKey` (may throw),
`schnorrVerify` / `ecdsaVerify` are `secp256k1.schnorr.verify` /
`secp256k1.verify`, and the four address builders are
`btc.p2pkh` / `btc.p2wpkh` / `btc.p2sh(btc.p2wpkh(..))` / `btc.p2tr` from
`@scure/btc-signer`, each returning the pair (address, scriptPubKey) or
throwing.  `p2wpkhHash` is `btc.p2wpkh(pub).hash` and `scriptEncode` is
`btc.Script.encode` for the P2WPKH script code. -/
structure Crypto where
  sha256 : List Nat → List Nat
  recoverU : List Nat → List Nat → Int → Bool → Option (List Nat)
  secpRecover : List Nat → List Nat → Except String (List Nat)
  schnorrVerify : List Nat → List Nat → List Nat → Bool
  ecdsaVerify : List Nat → List Nat → List Nat → Bool
  p2pkh : List Nat → Except String (String × List Nat)
  p2wpkh : List Nat → Except String (String × List Nat)
  p2shP2wpkh : List Nat → Except String (String × List Nat)
  p2tr : List Nat → Except String String
  p2wpkhHash : List Nat → Except String (List Nat)
  scriptEncode : List Nat → List Nat

/-- `hashMessage` from `verifier/utils.ts`: double SHA-256 of the legacy
framing (an oversized message propagates the varint error, caught by each
verifier's `try`). -/
def hashMessageU (C : Crypto) (message : String) : Except String (List Nat) :=
  match formatMessageForSigning message with
  | .error e => Except.error e
  | .ok formatted => Except.ok (C.sha256 (C.sha256 formatted))

/-! ## Section 5: signature.ts - BIP-322 implementation -/

/-- `Uint8Array` fitting: `new Uint8Array(n)` with `set(l, 0)`: the source
always writes payloads of exactly the declared size, so truncation /
zero-padding handles degenerate oracle outputs harmlessly. -/
def fitBytes (l : List Nat) (n : Nat) : List Nat :=
  l.take n ++ List.replicate (n - l.length) 0

/-- The TS `AddressType` union value of `signature.ts` (`'unknown'`
lower-case there). -/
def addrTypeNameS : AddrType → String
  | .P2PKH => "P2PKH"
  | .P2SH => "P2SH"
  | .P2WPKH => "P2WPKH"
  | .P2WSH => "P2WSH"
  | .P2TR => "P2TR"
  | .Unknown => "unknown"

/-- The TS `AddressType` union value of `verifier/types.ts`
(`'Unknown'` capitalised there). -/
def addrTypeNameU : AddrType → String
  | .P2PKH => "P2PKH"
  | .P2SH => "P2SH"
  | .P2WPKH => "P2WPKH"
  | .P2WSH => "P2WSH"
  | .P2TR => "P2TR"
  | .Unknown => "Unknown"

/-- `getAddressType` from `signature.ts`: like the utils version but the
`bc1q`/`tb1q` case distinguishes P2WPKH from P2WSH by the length of
`address.substring(4)`. -/
def getAddressTypeS (address : String) : AddrType :=
  if jsStartsWith address "1" || jsStartsWith address "m" || jsStartsWith address "n" then
    .P2PKH
  else if jsStartsWith address "3" || jsStartsWith address "2" then
    .P2SH
  else if jsStartsWith address "bc1q" || jsStartsWith address "tb1q" then
    (if address.length - 4 = 38 then .P2WPKH else .P2WSH)
  else if jsStartsWith address "bc1p" || jsStartsWith address "tb1p" then
    .P2TR
  else
    .Unknown

/-- `bip322MessageHash(message)` from `signature.ts`: single SHA-256 of
`sha256(tag) || sha256(tag) || utf8(message)`. -/
def bip322MessageHash (C : Crypto) (message : String) : List Nat :=
  let tagHash := C.sha256 (utf8Bytes "BIP0322-signed-message")
  let preimage := fitBytes tagHash 32 ++ fitBytes tagHash 32 ++ utf8Bytes message
  C.sha256 preimage

/-- `writeUint32LE` from `signature.ts`. -/
def writeUint32LE (n : Nat) : List Nat :=
  [n % 256, n / 256 % 256, n / 65536 % 256, n / 16777216 % 256]

/-- `writeUint64LE` from `signature.ts`. -/
def writeUint64LE (n : Nat) : List Nat :=
  (List.range 8).map (fun i => n / 256 ^ i % 256)

/-- `writeCompactSize` from `signature.ts` (same encoding as
`encodeVarInt`, different thrown message). -/
def writeCompactSize (n : Nat) : Except String (List Nat) :=
  if n < 0xfd then .ok [n]
  else if n ≤ 0xffff then .ok [0xfd, n % 256, n / 256 % 256]
  else if n ≤ 0xffffffff then
    .ok [0xfe, n % 256, n / 256 % 256, n / 65536 % 256, n / 16777216 % 256]
  else .error "Value too large for CompactSize"

/-- `createToSpendTransaction(messageHash, scriptPubKey)` from
`signature.ts`. -/
def createToSpendTransaction (messageHash scriptPubKey : List Nat) :
    Except String (List Nat) := do
  let scriptSig := [0x00, 0x20] ++ fitBytes messageHash 32
  let c1 ← writeCompactSize 1
  let cs ← writeCompactSize scriptSig.length
  let co ← writeCompactSize 1
  let cp ← writeCompactSize scriptPubKey.length
  pure (writeUint32LE 0 ++ c1 ++ List.replicate 32 0 ++ [0xFF, 0xFF, 0xFF, 0xFF] ++
    cs ++ scriptSig ++ writeUint32LE 0 ++ co ++ writeUint64LE 0 ++
    cp ++ scriptPubKey ++ writeUint32LE 0)

/-- `createToSignTransactionLegacy(toSpendTxId)` from `signature.ts`
(non-witness serialization with empty scriptSig and an `OP_RETURN`
output). -/
def createToSignTransactionLegacy (toSpendTxId : String) :
    Except String (List Nat) := do
  let txidBytes ←
    match hexDecode? toSpendTxId with
    | some b => Except.ok b
    | none => Except.error "hex.decode: invalid hex"
  let reversedTxid := (List.range 32).map (fun i => txidBytes.getD (31 - i) 0)
  let c1 ← writeCompactSize 1
  let c0 ← writeCompactSize 0
  let co ← writeCompactSize 1
  pure (writeUint32LE 0 ++ c1 ++ reversedTxid ++ writeUint32LE 0 ++ c0 ++
    writeUint32LE 0 ++ co ++ writeUint64LE 0 ++ [0x01, 0x6a] ++ writeUint32LE 0)

/-- `calculateLegacySighash` from `signature.ts`: splice the script into
the empty scriptSig at byte 42, append the 4-byte sighash type, double
SHA-256. -/
def calculateLegacySighash (C : Crypto) (transaction : List Nat)
    (scriptCode : List Nat) (sighashType : Nat) : Except String (List Nat) := do
  let cl ← writeCompactSize scriptCode.length
  let withScript := transaction.take 42 ++ cl ++ scriptCode ++ transaction.drop 43
  let withSighashType := withScript ++ writeUint32LE sighashType
  pure (C.sha256 (C.sha256 withSighashType))

/-- `calculateWitnessV0Sighash` from `signature.ts` (BIP-143 preimage). -/
def calculateWitnessV0Sighash (C : Crypto)
    (prevOuts sequences outpoint scriptCode : List Nat) (amount : Nat)
    (sequence : Nat) (outputs : List Nat) (locktime sighashType : Nat) :
    Except String (List Nat) := do
  let cl ← writeCompactSize scriptCode.length
  let preimage := writeUint32LE 0 ++ C.sha256 (C.sha256 prevOuts) ++
    C.sha256 (C.sha256 sequences) ++ outpoint ++ cl ++ scriptCode ++
    writeUint64LE amount ++ writeUint32LE sequence ++
    C.sha256 (C.sha256 outputs) ++ writeUint32LE locktime ++
    writeUint32LE sighashType
  pure (C.sha256 (C.sha256 preimage))

/-- `parseDERSignature(der)` from `signature.ts`.  Out-of-range reads give
JS `undefined`, which fails the tag comparisons; components longer than 32
bytes after un-padding make `Uint8Array.set` throw, caught into `null`. -/
def parseDERSignature (der : List Nat) : Option (List Nat) :=
  if der.get? 0 ≠ some 0x30 then none
  else if der.get? 2 ≠ some 0x02 then none
  else
    match der.get? 3 with
    | none => none
    | some rLen =>
      let r := (der.drop 4).take rLen
      let offset := 4 + rLen
      if der.get? offset ≠ some 0x02 then none
      else
        let s :=
          match der.get? (offset + 1) with
          | none => []
          | some sLen => (der.drop (offset + 2)).take sLen
        let rBytes := if r.get? 0 = some 0 then r.drop 1 else r
        let sBytes := if s.get? 0 = some 0 then s.drop 1 else s
        if rBytes.length > 32 ∨ sBytes.length > 32 then none
        else
          some ((List.replicate (32 - rBytes.length) 0 ++ rBytes) ++
            (List.replicate (32 - sBytes.length) 0 ++ sBytes))

/-- Item loop of `parseWitnessStack`: read an item length (1-byte direct or
`0xfd` 16-bit little-endian; `0xfe`/`0xff` rejected), then the item. -/
def parseWitnessItems (data : List Nat) : Nat → Nat → Option (List (List Nat))
  | _, 0 => some []
  | offset, Nat.succ k =>
    if offset ≥ data.length then none
    else
      let b := data.getD offset 0
      if b < 0xfd then
        if offset + 1 + b > data.length then none
        else
          match parseWitnessItems data (offset + 1 + b) k with
          | some rest => some (((data.drop (offset + 1)).take b) :: rest)
          | none => none
      else if b = 0xfd then
        if offset + 2 ≥ data.length then none
        else
          let itemLen := data.getD (offset + 1) 0 + data.getD (offset + 2) 0 * 256
          if offset + 3 + itemLen > data.length then none
          else
            match parseWitnessItems data (offset + 3 + itemLen) k with
            | some rest => some (((data.drop (offset + 3)).take itemLen) :: rest)
            | none => none
      else none

/-- `parseWitnessStack(data)` from `signature.ts`. -/
def parseWitnessStack (data : List Nat) : Option (List (List Nat)) :=
  match data with
  | [] => none
  | itemCount :: _ => parseWitnessItems data 1 itemCount

/-- `verifyBIP322Simple(message, signature, address)` from `signature.ts`
(no internal `try`, so hex-decode or `btc.p2tr` throws propagate to the
caller).  The derived Taproot address is compared with `===`, exact string
equality. -/
def verifyBIP322Simple (C : Crypto) (message signature address : String) :
    Except String Bool :=
  if ¬ jsStartsWith signature "tr:" then Except.ok false
  else if ¬ jsStartsWith address "bc1p" ∧ ¬ jsStartsWith address "tb1p" then
    Except.ok false
  else
    match splitChar ':' (signature.data.drop 3) with
    | [sig0, pubKey] =>
      let sig := if sig0.length = 127 then '0' :: sig0 else sig0
      if sig.length ≠ 128 ∨ pubKey.length ≠ 64 then Except.ok false
      else
        match hexDecode? (String.mk sig), hexDecode? (String.mk pubKey) with
        | some sigBytes, some pubKeyBytes =>
          let messageHash := bip322MessageHash C message
          if ¬ C.schnorrVerify sigBytes messageHash pubKeyBytes then Except.ok false
          else
            match C.p2tr pubKeyBytes with
            | .ok derivedAddress => Except.ok (decide (derivedAddress = address))
            | .error e => Except.error e
        | _, _ => Except.error "hex.decode: invalid hex"
    | _ => Except.ok false

/-- Body of `verifyBIP322Full` (`signature.ts`); its `try/catch` is applied
in `verifyBIP322Full` below. -/
def verifyBIP322FullE (C : Crypto) (message signature address : String) :
    Except String Bool :=
  match base64Decode? signature with
  | none => Except.error "base64.decode: invalid base64"
  | some sigBytes =>
  match parseWitnessStack sigBytes with
  | none => Except.ok false
  | some witnessStack =>
  if witnessStack.length < 2 then Except.ok false
  else
    let sigDER := witnessStack.getD 0 []
    let pubkey := witnessStack.getD 1 []
    let sigForParsing :=
      if sigDER.getLast? = some 0x01 then sigDER.dropLast else sigDER
    match parseDERSignature sigForParsing with
    | none => Except.ok false
    | some parsedSig =>
    let addressType := getAddressTypeS address
    -- `ok none` stands for the source's `return false` on unsupported types
    let dispatch : Except String (Option (String × List Nat)) :=
      if addressType = AddrType.P2PKH then (C.p2pkh pubkey).map some
      else if addressType = AddrType.P2WPKH then (C.p2wpkh pubkey).map some
      else if addressType = AddrType.P2SH then (C.p2shP2wpkh pubkey).map some
      else Except.ok none
    match dispatch with
    | .error e => Except.error e
    | .ok none => Except.ok false
    | .ok (some pair) =>
    if jsToLower pair.1 ≠ jsToLower address then Except.ok false
    else
      let messageHash := bip322MessageHash C message
      match createToSpendTransaction messageHash pair.2 with
      | .error e => Except.error e
      | .ok toSpend =>
      let toSpendTxId := hexEncode (C.sha256 (C.sha256 toSpend))
      let sighashE : Except String (List Nat) :=
        if addressType = AddrType.P2PKH then
          match createToSignTransactionLegacy toSpendTxId with
          | .error e => Except.error e
          | .ok toSign => calculateLegacySighash C toSign pair.2 0x01
        else
          match hexDecode? toSpendTxId with
          | none => Except.error "hex.decode: invalid hex"
          | some txidBytes =>
            let reversedTxid := (List.range 32).map (fun i => txidBytes.getD (31 - i) 0)
            let outpoint := fitBytes reversedTxid 36
            match C.p2wpkhHash pubkey with
            | .error e => Except.error e
            | .ok pubkeyHash =>
              calculateWitnessV0Sighash C outpoint (writeUint32LE 0) outpoint
                (C.scriptEncode pubkeyHash) 0 0 (writeUint64LE 0 ++ [0x01, 0x6a]) 0 0x01
      match sighashE with
      | .error e => Except.error e
      | .ok sighash => Except.ok (C.ecdsaVerify parsedSig sighash pair.2)

/-- `verifyBIP322Full` with its surrounding `try/catch`: any throw becomes
`false`. -/
def verifyBIP322Full (C : Crypto) (message signature address : String) : Bool :=
  match verifyBIP322FullE C message signature address with
  | .ok b => b
  | .error _ => false

/-- `recoverPublicKey(messageHash, signature, recovery)` from
`signature.ts`: slice r/s out of the 65-byte signature, rebuild
`[recovery, r, s]`, call `secp256k1.recoverPublicKey`; a throw is caught
into `null`. -/
def recoverPublicKeyS (C : Crypto) (messageHash signature : List Nat)
    (recovery : Nat) : Option (List Nat) :=
  let r := (signature.drop 1).take 32
  let s := (signature.drop 33).take 32
  let sigWithRecovery := recovery :: (fitBytes r 32 ++ fitBytes s 32)
  match C.secpRecover sigWithRecovery messageHash with
  | .ok pk => some pk
  | .error _ => none

/-- Body of `verifyBIP137` from `signature.ts` (the boolean variant used by
`verifyMessageWithMethod`); `try/catch` applied below. -/
def verifyBIP137SigE (C : Crypto) (message signature address : String) :
    Except String Bool :=
  match base64Decode? signature with
  | none => Except.ok false
  | some sigBytes =>
  if sigBytes.length > 3 ∧ sigBytes.getD 0 0 = 2 then
    Except.ok (verifyBIP322Full C message signature address)
  else if sigBytes.length ≠ 65 then Except.ok false
  else
    let flag := sigBytes.getD 0 0
    match hashMessageU C message with
    | .error e => Except.error e
    | .ok messageHash =>
    let recId? : Option Nat :=
      if 27 ≤ flag ∧ flag ≤ 30 then some (flag - 27)
      else if 31 ≤ flag ∧ flag ≤ 34 then some (flag - 31)
      else if 35 ≤ flag ∧ flag ≤ 38 then some (flag - 35)
      else if 39 ≤ flag ∧ flag ≤ 42 then some (flag - 39)
      else none
    match recId? with
    | none => Except.ok false
    | some recoveryId =>
    match recoverPublicKeyS C messageHash sigBytes recoveryId with
    | none => Except.ok false
    | some publicKey =>
    -- `ok none` stands for the source's unreachable `return false` branch
    let derivedE : Except String (Option String) :=
      if 27 ≤ flag ∧ flag ≤ 34 then ((C.p2pkh publicKey).map (·.1)).map some
      else if 35 ≤ flag ∧ flag ≤ 38 then ((C.p2shP2wpkh publicKey).map (·.1)).map some
      else if 39 ≤ flag ∧ flag ≤ 42 then ((C.p2wpkh publicKey).map (·.1)).map some
      else Except.ok none
    match derivedE with
    | .error e => Except.error e
    | .ok none => Except.ok false
    | .ok (some derivedAddress) =>
      Except.ok (decide (jsToLower derivedAddress = jsToLower address))

/-- `verifyBIP137` (`signature.ts`) with its `try/catch`. -/
def verifyBIP137Sig (C : Crypto) (message signature address : String) : Bool :=
  match verifyBIP137SigE C message signature address with
  | .ok b => b
  | .error _ => false

/-- Result record of `verifyMessageWithMethod` (`signature.ts`). -/
structure VerificationResultS where
  valid : Bool
  method : Option String
deriving Repr, DecidableEq

/-- Body of `verifyMessageWithMethod` from `signature.ts`: normalize the
message (trim + line endings), then try BIP-322 Simple (only for
`tr:`-tagged signatures), BIP-322 Full (only for witness-looking base64),
then the BIP-137/legacy 65-byte path. -/
def verifyMessageWithMethodE (C : Crypto) (message signature address : String) :
    Except String VerificationResultS :=
  let normalizedMessage := normalizeMessageMU message
  let simpleE : Except String Bool :=
    if jsStartsWith signature "tr:" then
      verifyBIP322Simple C normalizedMessage signature address
    else Except.ok false
  match simpleE with
  | .error e => Except.error e
  | .ok simpleOk =>
  if simpleOk then Except.ok ⟨true, some "BIP-322 Simple (Taproot)"⟩
  else
    let fullOk :=
      match base64Decode? signature with
      | some sigBytes =>
        if sigBytes.length > 3 ∧ sigBytes.getD 0 0 ≥ 2 then
          verifyBIP322Full C normalizedMessage signature address
        else false
      | none => false
    if fullOk then
      Except.ok ⟨true, some ("BIP-322 Full (" ++ addrTypeNameS (getAddressTypeS address) ++ ")")⟩
    else if verifyBIP137Sig C normalizedMessage signature address then
      let addressType := getAddressTypeS address
      if addressType = AddrType.P2WPKH then
        Except.ok ⟨true, some "BIP-137 (Native SegWit)"⟩
      else if addressType = AddrType.P2SH then
        Except.ok ⟨true, some "BIP-137 (Nested SegWit)"⟩
      else
        Except.ok ⟨true, some "Legacy"⟩
    else Except.ok ⟨false, none⟩

/-- `verifyMessageWithMethod` with its outer `try/catch`. -/
def verifyMessageWithMethodS (C : Crypto) (message signature address : String) :
    VerificationResultS :=
  match verifyMessageWithMethodE C message signature address with
  | .ok r => r
  | .error _ => ⟨false, none⟩

/-! ## Section 6: verifier chain (specs/bip322.ts, specs/bip137.ts,
specs/legacy.ts, compatibility/loose-bip137.ts) and the dispatcher
(verifier.ts) with the route-level retries (app/api/verify/route.ts). -/

/-- Result record of `verifier/types.ts`. -/
structure VerificationResult where
  valid : Bool
  method : Option String
  details : Option String
deriving Repr, DecidableEq

/-- `verifyBIP322` from `verifier/specs/bip322.ts`: delegates to
`verifyMessageWithMethod` of `signature.ts` and accepts only results whose
method mentions BIP-322. -/
def verifyBIP322V (C : Crypto) (message signature address : String) :
    VerificationResult :=
  let result := verifyMessageWithMethodS C message signature address
  if result.valid &&
      (match result.method with
       | some m => includesStr m "BIP-322"
       | none => false) then
    ⟨true, result.method, some ("Verified using " ++ result.method.getD "")⟩
  else
    ⟨false, none, some "Not a valid BIP-322 signature"⟩

/-- The flag-implied type label used in the details strings of
`specs/bip137.ts`. -/
def flagTypeName : FlagType → String
  | .P2PKH => "P2PKH"
  | .P2SHP2WPKH => "P2SH-P2WPKH"
  | .P2WPKH => "P2WPKH"

/-- Body of `verifyBIP137` from `verifier/specs/bip137.ts` (spec mode:
the flag-implied address type must match the classified claimed type);
`try/catch` applied below. -/
def verifyBIP137VE (C : Crypto) (message signature address : String) :
    Except String VerificationResult :=
  match base64Decode? signature with
  | none => Except.ok ⟨false, none, some "Invalid base64 signature"⟩
  | some sigBytes =>
  if sigBytes.length ≠ 65 then
    Except.ok ⟨false, none,
      some ("Invalid signature length: " ++ toString sigBytes.length ++ ", expected 65")⟩
  else
    let flag := sigBytes.getD 0 0
    let pf := parseSignatureFlag flag
    match pf.addressType with
    | none =>
      Except.ok ⟨false, none, some ("Invalid BIP-137 header flag: " ++ toString flag)⟩
    | some addressType =>
    let actualAddressType := getAddressTypeU address
    if addressType = FlagType.P2PKH ∧ actualAddressType ≠ AddrType.P2PKH then
      Except.ok ⟨false, none,
        some ("BIP-137: Flag " ++ toString flag ++ " indicates P2PKH but address is " ++
          addrTypeNameU actualAddressType)⟩
    else if addressType = FlagType.P2SHP2WPKH ∧ actualAddressType ≠ AddrType.P2SH then
      Except.ok ⟨false, none,
        some ("BIP-137: Flag " ++ toString flag ++ " indicates P2SH-P2WPKH but address is " ++
          addrTypeNameU actualAddressType)⟩
    else if addressType = FlagType.P2WPKH ∧ actualAddressType ≠ AddrType.P2WPKH then
      Except.ok ⟨false, none,
        some ("BIP-137: Flag " ++ toString flag ++ " indicates P2WPKH but address is " ++
          addrTypeNameU actualAddressType)⟩
    else
      match hashMessageU C message with
      | .error e => Except.error e
      | .ok messageHash =>
      let sigData := sigBytes.drop 1
      match C.recoverU sigData messageHash pf.recoveryId pf.compressed with
      | none =>
        Except.ok ⟨false, none, some "Failed to recover public key from signature"⟩
      | some publicKey =>
      let derived : Except String String :=
        match addressType with
        | .P2PKH => (C.p2pkh publicKey).map (·.1)
        | .P2SHP2WPKH => (C.p2shP2wpkh publicKey).map (·.1)
        | .P2WPKH => (C.p2wpkh publicKey).map (·.1)
      match derived with
      | .error e =>
        Except.ok ⟨false, none, some ("Failed to derive address: " ++ e)⟩
      | .ok derivedAddress =>
        let valid := jsToLower derivedAddress = jsToLower address
        Except.ok ⟨valid,
          if valid then some ("BIP-137 (" ++ flagTypeName addressType ++ ")") else none,
          if valid then none
          else some ("Derived " ++ derivedAddress ++ ", expected " ++ address)⟩

/-- `verifyBIP137` (`verifier/specs/bip137.ts`) with its `try/catch`. -/
def verifyBIP137V (C : Crypto) (message signature address : String) :
    VerificationResult :=
  match verifyBIP137VE C message signature address with
  | .ok r => r
  | .error e => ⟨false, none, some ("BIP-137 verification error: " ++ e)⟩

/-- Body of `verifyLegacy` from `verifier/specs/legacy.ts` (P2PKH only,
flags 27-34); `try/catch` applied below. -/
def verifyLegacyVE (C : Crypto) (message signature address : String) :
    Except String VerificationResult :=
  let addressType := getAddressTypeU address
  if addressType ≠ AddrType.P2PKH then
    Except.ok ⟨false, none,
      some ("Legacy signatures only support P2PKH addresses, got " ++
        addrTypeNameU addressType)⟩
  else
    match base64Decode? signature with
    | none => Except.ok ⟨false, none, some "Invalid base64 signature"⟩
    | some sigBytes =>
    if sigBytes.length ≠ 65 then
      Except.ok ⟨false, none,
        some ("Invalid signature length: " ++ toString sigBytes.length)⟩
    else
      let flag := sigBytes.getD 0 0
      if flag < 27 ∨ flag > 34 then
        Except.ok ⟨false, none,
          some ("Invalid legacy flag: " ++ toString flag ++ ". Expected 27-34")⟩
      else
        let recCompressed : Nat × Bool :=
          if 27 ≤ flag ∧ flag ≤ 30 then (flag - 27, false) else (flag - 31, true)
        match hashMessageU C message with
        | .error e => Except.error e
        | .ok messageHash =>
        let sigData := sigBytes.drop 1
        match C.recoverU sigData messageHash (recCompressed.1 : Int) recCompressed.2 with
        | none => Except.ok ⟨false, none, some "Failed to recover public key"⟩
        | some publicKey =>
        match (C.p2pkh publicKey).map (·.1) with
        | .error e =>
          Except.ok ⟨false, none, some ("Failed to derive address: " ++ e)⟩
        | .ok derivedAddress =>
          let valid := jsToLower derivedAddress = jsToLower address
          Except.ok ⟨valid,
            if valid then
              some ("Legacy (P2PKH, " ++
                (if recCompressed.2 then "compressed" else "uncompressed") ++ ")")
            else none,
            if valid then none
            else some ("Derived " ++ derivedAddress ++ ", expected " ++ address)⟩

/-- `verifyLegacy` (`verifier/specs/legacy.ts`) with its `try/catch`. -/
def verifyLegacyV (C : Crypto) (message signature address : String) :
    VerificationResult :=
  match verifyLegacyVE C message signature address with
  | .ok r => r
  | .error e => ⟨false, none, some ("Legacy verification error: " ++ e)⟩

/-- The candidate list of `compatibility/loose-bip137.ts` for one recovered
public key: P2PKH always; with a compressed key also P2WPKH,
P2SH-P2WPKH and (non-standard) P2TR over the x-only key; every builder
throw is swallowed. -/
def loosePossibleAddresses (C : Crypto) (publicKey : List Nat)
    (compressed : Bool) : List (String × String) :=
  (match C.p2pkh publicKey with
   | .ok pr => [(pr.1, "P2PKH")]
   | .error _ => []) ++
  (if compressed then
    (match C.p2wpkh publicKey with
     | .ok pr => [(pr.1, "P2WPKH")]
     | .error _ => []) ++
    (match C.p2shP2wpkh publicKey with
     | .ok pr => [(pr.1, "P2SH-P2WPKH")]
     | .error _ => []) ++
    (match C.p2tr ((publicKey.drop 1).take 32) with
     | .ok a => [(a, "P2TR (non-standard BIP-137)")]
     | .error _ => [])
  else [])

/-- The nested recovery loop of `loose-bip137.ts` over
`(recoveryId, compressed)` combinations, first lowercase match wins. -/
def looseSearch (C : Crypto) (messageHash sigData : List Nat) (flag : Nat)
    (address : String) : List (Nat × Bool) → Option VerificationResult
  | [] => none
  | (rid, comp) :: rest =>
    match C.recoverU sigData messageHash (rid : Int) comp with
    | none => looseSearch C messageHash sigData flag address rest
    | some publicKey =>
      match (loosePossibleAddresses C publicKey comp).find?
          (fun d => jsToLower d.1 = jsToLower address) with
      | some d =>
        some ⟨true, some "Loose BIP-137",
          some ("Matched as " ++ d.2 ++ ", flag=" ++ toString flag ++
            ", recoveryId=" ++ toString rid ++ ", compressed=" ++
            (if comp then "true" else "false"))⟩
      | none => looseSearch C messageHash sigData flag address rest

/-- The `(recoveryId, compressed)` iteration order of the source's nested
`for` loops. -/
def looseCombos : List (Nat × Bool) :=
  [(0, true), (0, false), (1, true), (1, false),
   (2, true), (2, false), (3, true), (3, false)]

/-- Body of `verifyLooseBIP137` from `compatibility/loose-bip137.ts`;
`try/catch` applied below. -/
def verifyLooseBIP137VE (C : Crypto) (message signature address : String) :
    Except String VerificationResult :=
  match base64Decode? signature with
  | none => Except.ok ⟨false, none, some "Invalid base64 signature"⟩
  | some sigBytes =>
  if sigBytes.length ≠ 65 then
    Except.ok ⟨false, none, some ("Invalid signature length: " ++ toString sigBytes.length)⟩
  else
    let flag := sigBytes.getD 0 0
    match hashMessageU C message with
    | .error e => Except.error e
    | .ok messageHash =>
    let sigData := sigBytes.drop 1
    match looseSearch C messageHash sigData flag address looseCombos with
    | some r => Except.ok r
    | none =>
      Except.ok ⟨false, none, some "Could not recover matching public key with loose BIP-137"⟩

/-- `verifyLooseBIP137` (`compatibility/loose-bip137.ts`) with its
`try/catch`. -/
def verifyLooseBIP137V (C : Crypto) (message signature address : String) :
    VerificationResult :=
  match verifyLooseBIP137VE C message signature address with
  | .ok r => r
  | .error e => ⟨false, none, some ("Loose BIP-137 error: " ++ e)⟩

/-- The four verifiers imported by `verifier.ts`, as an explicit record so
theorems about the dispatcher can quantify over them. -/
structure VerifierChain where
  bip322 : String → String → String → VerificationResult
  bip137 : String → String → String → VerificationResult
  legacy : String → String → String → VerificationResult
  loose : String → String → String → VerificationResult

/-- The chain actually wired up by the imports of `verifier.ts`. -/
def chainVerifiers (C : Crypto) : VerifierChain :=
  ⟨verifyBIP322V C, verifyBIP137V C, verifyLegacyV C, verifyLooseBIP137V C⟩

/-- JS template-literal rendering of a possibly-undefined details field. -/
def detailsStr (d : Option String) : String :=
  d.getD "undefined"

/-- `tryVerificationSequence` from `verifier.ts`: BIP-322, BIP-137, Legacy
in order; in strict mode stop there, otherwise also Loose BIP-137. -/
def tryVerificationSequence (V : VerifierChain)
    (message signature address : String) (strict : Bool) : VerificationResult :=
  let bip322Result := V.bip322 message signature address
  if bip322Result.valid then bip322Result
  else
    let bip137Result := V.bip137 message signature address
    if bip137Result.valid then bip137Result
    else
      let legacyResult := V.legacy message signature address
      if legacyResult.valid then legacyResult
      else if strict then
        ⟨false, none,
          some ("Strict mode: No spec-compliant verifier succeeded.\nBIP-322: " ++
            detailsStr bip322Result.details ++ "\nBIP-137: " ++
            detailsStr bip137Result.details ++ "\nLegacy: " ++
            detailsStr legacyResult.details)⟩
      else
        let looseResult := V.loose message signature address
        if looseResult.valid then looseResult
        else
          ⟨false, none,
            some ("All verification methods failed.\nBIP-322: " ++
              detailsStr bip322Result.details ++ "\nBIP-137: " ++
              detailsStr bip137Result.details ++ "\nLegacy: " ++
              detailsStr legacyResult.details ++ "\nLoose BIP-137: " ++
              detailsStr looseResult.details)⟩

/-- `verifyMessage` from `verifier.ts`, instrumented with the list of
`(message, signature)` pairs on which `tryVerificationSequence` is invoked
(first the original inputs; in permissive mode possibly once more with the
normalized message and/or signature). -/
def verifyMessageRun (V : VerifierChain) (message signature address : String)
    (strict : Bool) : VerificationResult × List (String × String) :=
  let originalResult := tryVerificationSequence V message signature address strict
  if originalResult.valid then (originalResult, [(message, signature)])
  else if strict then (originalResult, [(message, signature)])
  else
    let messageValidation := validateMessage message
    let signatureValidation := detectAndNormalizeSignature signature
    let hasMessageNormalization : Bool :=
      match messageValidation.normalized with
      | some n => decide (n ≠ message)
      | none => false
    let hasSignatureNormalization : Bool :=
      decide (signatureValidation.normalized ≠ signature) && signatureValidation.valid
    if hasMessageNormalization || hasSignatureNormalization then
      let normalizedMessage := messageValidation.normalized.getD message
      let normalizedSignature :=
        if hasSignatureNormalization then signatureValidation.normalized else signature
      let normalizedResult :=
        tryVerificationSequence V normalizedMessage normalizedSignature address strict
      if normalizedResult.valid then
        (⟨true, some (normalizedResult.method.getD "undefined" ++ " (normalized)"),
          some ("Succeeded with normalization: " ++
            (if hasMessageNormalization then "message" else "") ++
            (if hasMessageNormalization && hasSignatureNormalization then "+" else "") ++
            (if hasSignatureNormalization then "signature" else ""))⟩,
          [(message, signature), (normalizedMessage, normalizedSignature)])
      else
        (originalResult, [(message, signature), (normalizedMessage, normalizedSignature)])
    else (originalResult, [(message, signature)])

/-- `verifyMessage` proper (result only). -/
def verifyMessageV (V : VerifierChain) (message signature address : String)
    (strict : Bool) : VerificationResult :=
  (verifyMessageRun V message signature address strict).1

/-- The retry ladder of `app/api/verify/route.ts` around `verifyMessage`
(always permissive): original message, then `+ ' '`, `+ '\n'`, `+ '\r\n'`,
each only when verification is still failing and the original message does
not already end with that suffix; instrumented like `verifyMessageRun`. -/
def postVerifyRun (V : VerifierChain) (message signature address : String) :
    VerificationResult × List (String × String) :=
  let r1 := verifyMessageRun V message signature address false
  let step1 := r1
  let step2 :=
    if ¬ step1.1.valid ∧ ¬ jsEndsWith message " " then
      let r2 := verifyMessageRun V (message ++ " ") signature address false
      (r2.1, step1.2 ++ r2.2)
    else step1
  let step3 :=
    if ¬ step2.1.valid ∧ ¬ jsEndsWith message "\n" then
      let r3 := verifyMessageRun V (message ++ "\n") signature address false
      (r3.1, step2.2 ++ r3.2)
    else step2
  if ¬ step3.1.valid ∧ ¬ jsEndsWith message "\r\n" then
    let r4 := verifyMessageRun V (message ++ "\r\n") signature address false
    (r4.1, step3.2 ++ r4.2)
  else step3

/-! ## Section 7: the bot's /recheck and /enforce member sweeps
(the member loops of `bot.command('recheck')` and `bot.command('enforce')`).

External collaborators (Telegram API, balance API, Prisma writes) are
modelled as an environment of fallible calls plus an emitted effect log;
the returned member list is the database state after the sweep. -/

/-- The slice of a Telegram `getChatMember` result the sweeps read. -/
structure ChatMemberInfo where
  status : String
  username : Option String
  firstName : Option String
deriving Repr, DecidableEq

/-- A tracked `Member` row (the fields the sweeps touch). -/
structure MemberRec where
  tgId : String
  address : Option String
  state : String
  policyHash : Option String
  lastCheck : Nat
  tgUsername : Option String
  tgName : Option String
deriving Repr, DecidableEq

/-- A `Policy` row (the fields the sweeps read). -/
structure PolicyRec where
  typ : String
  asset : Option String
  minAmount : Option String
  includeUnconfirmed : Bool
  onFail : Option String
deriving Repr, DecidableEq

/-- External calls made inside the per-member loop: `getChatMember` and
`passesTokenPolicy` may throw (`.error`), which the loop's `catch` turns
into an error tally. -/
structure SweepEnv where
  getChatMember : String → Except String (Option ChatMemberInfo)
  passesToken : String → Except String Bool
  getChatMemberCount : Option Nat
  now : Nat

/-- `!policy || policy.type === 'basic'`. -/
def isBasicPolicy (policy : Option PolicyRec) : Bool :=
  match policy with
  | none => true
  | some p => p.typ = "basic"

/-- Display name used in the recheck report:
`user.username ? '@u' : (user.first_name || 'User ' + tgId)`. -/
def displayName (cm : ChatMemberInfo) (tgId : String) : String :=
  if (cm.username.getD "").data ≠ [] then "@" ++ cm.username.getD ""
  else if (cm.firstName.getD "").data ≠ [] then cm.firstName.getD ""
  else "User " ++ tgId

/-- Display name used in the enforce report (`'User'` fallback). -/
def displayNameE (cm : ChatMemberInfo) : String :=
  if (cm.username.getD "").data ≠ [] then "@" ++ cm.username.getD ""
  else if (cm.firstName.getD "").data ≠ [] then cm.firstName.getD ""
  else "User"

/-- Side effects the sweeps can emit towards Telegram and the database. -/
inductive Effect
  | restrictChatMember (tgId : String)
  | softKick (tgId : String)
  | sendDM (tgId : String)
  | dbDeleteMember (tgId : String)
  | dbUpdateNames (tgId : String) (username firstName : Option String)
  | dbUpdateCompliance (tgId : String) (newState : Option String)
      (policyHash : String) (lastCheck : Nat)
deriving Repr, DecidableEq

/-- Which tally bucket one recheck iteration lands in. -/
inductive CheckTally
  | admin
  | grandfathered (nm : String)
  | compliant
  | noncompliant (nm : String)
  | errorTally
  | skip
deriving Repr, DecidableEq

/-- One iteration of the recheck member loop: presence check, cached
username/name refresh, admin skip, grandfathered skip, then the
basic/token compliance check; any thrown external call lands in the error
tally.  No destructive action exists in this loop; the only write is the
cached-name refresh. -/
def recheckStep (env : SweepEnv) (policy : Option PolicyRec) (H : String)
    (m : MemberRec) : MemberRec × List Effect × CheckTally :=
  match env.getChatMember m.tgId with
  | .error _ => (m, [], .errorTally)
  | .ok none => (m, [], .skip)
  | .ok (some cm) =>
    if cm.status = "left" ∨ cm.status = "kicked" then (m, [], .skip)
    else
      let refresh := m.tgUsername ≠ cm.username ∨ m.tgName ≠ cm.firstName
      let m' :=
        if refresh then { m with tgUsername := cm.username, tgName := cm.firstName }
        else m
      let effs :=
        if refresh then [Effect.dbUpdateNames m.tgId cm.username cm.firstName]
        else []
      if cm.status = "administrator" ∨ cm.status = "creator" then
        (m', effs, .admin)
      else if isGrandfathered m.policyHash H then
        (m', effs, .grandfathered (displayName cm m.tgId))
      else
        let passes : Except String Bool :=
          if isBasicPolicy policy then
            .ok (decide (m.state = "verified") && decide (m.address ≠ none))
          else
            match m.address with
            | some a => env.passesToken a
            | none => .ok false
        match passes with
        | .error _ => (m', effs, .errorTally)
        | .ok p =>
          if p then (m', effs, .compliant)
          else (m', effs, .noncompliant
            (displayName cm m.tgId ++ if isBasicPolicy policy then " (not verified)" else ""))

/-- Accumulated result of the recheck loop (the report counters plus the
database state it leaves behind). -/
structure RecheckOut where
  members : List MemberRec
  effects : List Effect
  adminCount : Nat
  compliantCount : Nat
  nonCompliantMembers : List String
  grandfatheredMembers : List String
  errorCount : Nat
  totalMembers : Nat
  untrackedCount : Int
deriving Repr, DecidableEq

/-- One fold step of the recheck loop: append the (possibly name-refreshed)
member and the emitted effects, then bump the tally the iteration landed
in. -/
def recheckFold (env : SweepEnv) (policy : Option PolicyRec) (H : String)
    (acc : RecheckOut) (m : MemberRec) : RecheckOut :=
  let r := recheckStep env policy H m
  let acc' := { acc with
    members := acc.members ++ [r.1]
    effects := acc.effects ++ r.2.1 }
  match r.2.2 with
  | .admin => { acc' with adminCount := acc'.adminCount + 1 }
  | .grandfathered nm =>
    { acc' with grandfatheredMembers := acc'.grandfatheredMembers ++ [nm] }
  | .compliant => { acc' with compliantCount := acc'.compliantCount + 1 }
  | .noncompliant nm =>
    { acc' with nonCompliantMembers := acc'.nonCompliantMembers ++ [nm] }
  | .errorTally => { acc' with errorCount := acc'.errorCount + 1 }
  | .skip => acc'

/-- The recheck member loop (`bot.command('recheck')`). -/
def recheckRun (env : SweepEnv) (policy : Option PolicyRec) (H : String)
    (members : List MemberRec) : RecheckOut :=
  let total := env.getChatMemberCount.getD 0
  members.foldl (recheckFold env policy H)
    ⟨[], [], 0, 0, [], [], 0, total, (total : Int) - members.length⟩

/-- Which tally bucket one enforce iteration lands in. -/
inductive EnforceTally
  | deleted
  | errorTally
  | adminKept (hashUpdated : Bool)
  | keptPass (wasGrandfathered : Bool)
  | removedFail (nm : String)
deriving Repr, DecidableEq

/-- One iteration of the enforce member loop (`bot.command('enforce')`):
departed members are purged; administrators/creators are never restricted
or removed (only their policy hash is stamped when stale); everyone else is
checked against the live policy regardless of hash, failures are restricted
or soft-kicked per `policy?.onFail || 'soft_kick'` and stamped, passes are
stamped. -/
def enforceStep (env : SweepEnv) (policy : Option PolicyRec) (H : String)
    (m : MemberRec) : Option MemberRec × List Effect × EnforceTally :=
  match env.getChatMember m.tgId with
  | .error _ => (some m, [], .errorTally)
  | .ok none => (none, [Effect.dbDeleteMember m.tgId], .deleted)
  | .ok (some cm) =>
    if cm.status = "left" ∨ cm.status = "kicked" then
      (none, [Effect.dbDeleteMember m.tgId], .deleted)
    else if cm.status = "administrator" ∨ cm.status = "creator" then
      if m.policyHash ≠ some H then
        (some { m with policyHash := some H, lastCheck := env.now },
          [Effect.dbUpdateCompliance m.tgId none H env.now], .adminKept true)
      else (some m, [], .adminKept false)
    else
      let wasGrandfathered := m.policyHash ≠ some H
      let passes : Except String Bool :=
        if isBasicPolicy policy then
          .ok (decide (m.address ≠ none) && decide (m.state = "verified"))
        else
          match m.address with
          | none => .ok false
          | some a => env.passesToken a
      match passes with
      | .error _ => (some m, [], .errorTally)
      | .ok p =>
        if ¬ p then
          let onFail := (policy.bind (·.onFail)).getD "soft_kick"
          if onFail = "restrict" then
            (some { m with state := "restricted", policyHash := some H, lastCheck := env.now },
              [Effect.restrictChatMember m.tgId,
                Effect.dbUpdateCompliance m.tgId (some "restricted") H env.now,
                Effect.sendDM m.tgId],
              .removedFail (displayNameE cm ++
                if isBasicPolicy policy then " (restricted - not verified)"
                else " (restricted - insufficient balance)"))
          else
            (some { m with state := "kicked", policyHash := some H, lastCheck := env.now },
              [Effect.softKick m.tgId,
                Effect.dbUpdateCompliance m.tgId (some "kicked") H env.now,
                Effect.sendDM m.tgId],
              .removedFail (displayNameE cm ++
                if isBasicPolicy policy then " (removed - not verified)"
                else " (removed - insufficient balance)"))
        else
          (some { m with policyHash := some H, lastCheck := env.now },
            [Effect.dbUpdateCompliance m.tgId none H env.now],
            .keptPass wasGrandfathered)

/-- Accumulated result of the enforce loop. -/
structure EnforceOut where
  members : List MemberRec
  effects : List Effect
  removedCount : Nat
  keptCount : Nat
  errorCount : Nat
  updatedHashCount : Nat
  removedNames : List String
deriving Repr, DecidableEq

/-- The enforce member loop (`bot.command('enforce')`, after CONFIRM). -/
def enforceRun (env : SweepEnv) (policy : Option PolicyRec) (H : String)
    (members : List MemberRec) : EnforceOut :=
  members.foldl
    (fun acc m =>
      let r := enforceStep env policy H m
      let acc' := { acc with
        members := acc.members ++ (match r.1 with | some m' => [m'] | none => [])
        effects := acc.effects ++ r.2.1 }
      match r.2.2 with
      | .deleted => acc'
      | .errorTally => { acc' with errorCount := acc'.errorCount + 1 }
      | .adminKept hu =>
        { acc' with
          keptCount := acc'.keptCount + 1
          updatedHashCount := acc'.updatedHashCount + (if hu then 1 else 0) }
      | .keptPass wg =>
        { acc' with
          keptCount := acc'.keptCount + 1
          updatedHashCount := acc'.updatedHashCount + (if wg then 1 else 0) }
      | .removedFail nm =>
        { acc' with
          removedCount := acc'.removedCount + 1
          removedNames := acc'.removedNames ++ [nm] })
    ⟨[], [], 0, 0, 0, 0, []⟩

/-! ## Concrete instances used to evaluate the embedding on closed inputs -/

/-- An inert `Crypto`: every primitive fails or rejects.  Used to evaluate
control flow that must not depend on the primitives. -/
def trivCrypto : Crypto where
  sha256 := fun _ => []
  recoverU := fun _ _ _ _ => none
  secpRecover := fun _ _ => Except.error "recovery failed"
  schnorrVerify := fun _ _ _ => false
  ecdsaVerify := fun _ _ _ => false
  p2pkh := fun _ => Except.error "derivation failed"
  p2wpkh := fun _ => Except.error "derivation failed"
  p2shP2wpkh := fun _ => Except.error "derivation failed"
  p2tr := fun _ => Except.error "derivation failed"
  p2wpkhHash := fun _ => Except.error "derivation failed"
  scriptEncode := fun _ => []

/-- A verifier chain whose four members always fail. -/
def constFailChain : VerifierChain :=
  ⟨fun _ _ _ => ⟨false, none, none⟩, fun _ _ _ => ⟨false, none, none⟩,
   fun _ _ _ => ⟨false, none, none⟩, fun _ _ _ => ⟨false, none, none⟩⟩

/-! ## Claim theorems for the verification engine -/

/-- C10: BIP-322 Full (witness format) returns false for every claimed
address whose classified type is not P2PKH, P2WPKH or P2SH, whatever the
cryptographic primitives return - so a witness-format signature can never
validate a P2TR or P2WSH address; and the `tr:`-tagged BIP-322 Simple path
returns false for every address not starting with `bc1p`/`tb1p`, so within
the BIP-322 implementation Taproot is reachable only through the Simple
path. -/
theorem bip322_address_type_guards :
    (∀ (C : Crypto) (message signature address : String),
      getAddressTypeS address ≠ AddrType.P2PKH →
      getAddressTypeS address ≠ AddrType.P2WPKH →
      getAddressTypeS address ≠ AddrType.P2SH →
      verifyBIP322Full C message signature address = false) ∧
    (∀ (C : Crypto) (message signature address : String),
      ¬ jsStartsWith address "bc1p" → ¬ jsStartsWith address "tb1p" →
      verifyBIP322Simple C message signature address = Except.ok false) := by
  constructor
  · intro C message signature address h1 h2 h3
    unfold verifyBIP322Full verifyBIP322FullE
    simp only [if_neg h1, if_neg h2, if_neg h3]
    repeat' split
    all_goals try rfl
    all_goals rename_i heq
    all_goals repeat' split at heq
    all_goals simp_all
  · intro C message signature address h1 h2
    unfold verifyBIP322Simple
    by_cases htr : jsStartsWith signature "tr:"
    · simp [htr, h1, h2]
    · simp [htr]

/-- Witness for C10 at concrete inputs: a short bech32q string classifies
as P2WSH and is rejected by the Full path; a legacy address is rejected by
the Simple path. -/
theorem bip322_address_type_guards_witness :
    getAddressTypeS "bc1qxyz" = AddrType.P2WSH ∧
    verifyBIP322Full trivCrypto "msg" "AAAA" "bc1qxyz" = false ∧
    getAddressTypeS "bc1p00" = AddrType.P2TR ∧
    verifyBIP322Full trivCrypto "msg" "AAAA" "bc1p00" = false ∧
    verifyBIP322Simple trivCrypto "msg" "AAAA" "1abc" = Except.ok false := by
  refine ⟨by decide, ?_, by decide, ?_, ?_⟩
  · exact bip322_address_type_guards.1 trivCrypto "msg" "AAAA" "bc1qxyz"
      (by decide) (by decide) (by decide)
  · exact bip322_address_type_guards.1 trivCrypto "msg" "AAAA" "bc1p00"
      (by decide) (by decide) (by decide)
  · exact bip322_address_type_guards.2 trivCrypto "msg" "AAAA" "1abc"
      (by decide) (by decide)

lemma parseSignatureFlag_out_of_range (flag : Nat) (h : flag < 27 ∨ 42 < flag) :
    parseSignatureFlag flag = ⟨none, -1, false⟩ := by
  unfold parseSignatureFlag
  rcases h with h | h <;>
    rw [if_neg (by omega), if_neg (by omega), if_neg (by omega), if_neg (by omega)]

/-- C3: the BIP-137 flag byte decodes per the ranges 27-30 (P2PKH
uncompressed), 31-34 (P2PKH compressed), 35-38 (nested SegWit), 39-42
(native SegWit), each with `recoveryId = flag - base`; any flag outside
27..42 makes spec BIP-137 verification return a clean format failure
(valid = false with the flag diagnostic, never a crash or an acceptance),
for every behaviour of the crypto primitives; and in strict BIP-137
verification a flag whose implied address type does not match the claimed
address's classified type is rejected. -/
theorem bip137_flag_decoding :
    (∀ flag : Nat,
      (27 ≤ flag ∧ flag ≤ 30 →
        parseSignatureFlag flag = ⟨some .P2PKH, (flag : Int) - 27, false⟩) ∧
      (31 ≤ flag ∧ flag ≤ 34 →
        parseSignatureFlag flag = ⟨some .P2PKH, (flag : Int) - 31, true⟩) ∧
      (35 ≤ flag ∧ flag ≤ 38 →
        parseSignatureFlag flag = ⟨some .P2SHP2WPKH, (flag : Int) - 35, true⟩) ∧
      (39 ≤ flag ∧ flag ≤ 42 →
        parseSignatureFlag flag = ⟨some .P2WPKH, (flag : Int) - 39, true⟩) ∧
      (flag < 27 ∨ 42 < flag → parseSignatureFlag flag = ⟨none, -1, false⟩)) ∧
    (∀ (C : Crypto) (message signature address : String) (bs : List Nat),
      base64Decode? signature = some bs → bs.length = 65 →
      (bs.getD 0 0 < 27 ∨ 42 < bs.getD 0 0) →
      verifyBIP137V C message signature address =
        ⟨false, none,
          some ("Invalid BIP-137 header flag: " ++ toString (bs.getD 0 0))⟩) ∧
    (∀ (C : Crypto) (message signature address : String) (bs : List Nat)
        (T : FlagType),
      base64Decode? signature = some bs → bs.length = 65 →
      (parseSignatureFlag (bs.getD 0 0)).addressType = some T →
      ((T = .P2PKH ∧ getAddressTypeU address ≠ .P2PKH) ∨
       (T = .P2SHP2WPKH ∧ getAddressTypeU address ≠ .P2SH) ∨
       (T = .P2WPKH ∧ getAddressTypeU address ≠ .P2WPKH)) →
      (verifyBIP137V C message signature address).valid = false) := by
  refine ⟨?_, ?_, ?_⟩
  · intro flag
    refine ⟨?_, ?_, ?_, ?_, parseSignatureFlag_out_of_range flag⟩ <;>
      intro h <;> unfold parseSignatureFlag
    · rw [if_pos (by omega)]
    · rw [if_neg (by omega), if_pos (by omega)]
    · rw [if_neg (by omega), if_neg (by omega), if_pos (by omega)]
    · rw [if_neg (by omega), if_neg (by omega), if_neg (by omega), if_pos (by omega)]
  · intro C message signature address bs hdec hlen hrange
    unfold verifyBIP137V verifyBIP137VE
    simp only [hdec, hlen, parseSignatureFlag_out_of_range _ hrange]
    simp
  · intro C message signature address bs T hdec hlen hT hmis
    unfold verifyBIP137V verifyBIP137VE
    simp only [hdec, hlen, hT]
    rcases hmis with ⟨hT1, hM⟩ | ⟨hT1, hM⟩ | ⟨hT1, hM⟩ <;> subst hT1 <;>
      simp [hM]

/-- Witness for C3 at concrete inputs: a 65-byte signature with flag byte
43 is a clean format failure, and one with flag byte 31 (P2PKH compressed)
is rejected against a native-SegWit address. -/
theorem bip137_flag_decoding_witness :
    parseSignatureFlag 43 = ⟨none, -1, false⟩ ∧
    parseSignatureFlag 31 = ⟨some .P2PKH, 0, true⟩ ∧
    verifyBIP137V trivCrypto "test"
      "KwAAAAAAAAAAAAAAAAAAAAAAAAAAAAAAAAAAAAAAAAAAAAAAAAAAAAAAAAAAAAAAAAAAAAAAAAAAAAAAAAAAAAA="
      "1abc" =
      ⟨false, none, some ("Invalid BIP-137 header flag: " ++ toString 43)⟩ ∧
    (verifyBIP137V trivCrypto "test"
      "HwAAAAAAAAAAAAAAAAAAAAAAAAAAAAAAAAAAAAAAAAAAAAAAAAAAAAAAAAAAAAAAAAAAAAAAAAAAAAAAAAAAAAA="
      "bc1qqqqqqqqqqqqqqqqqqqqqqqqqqqqqqqqqqqqqq").valid = false := by
  refine ⟨?_, ?_, ?_, ?_⟩
  · exact (bip137_flag_decoding.1 43).2.2.2.2 (by omega)
  · have := (bip137_flag_decoding.1 31).2.1 (by omega)
    simpa using this
  · exact bip137_flag_decoding.2.1 trivCrypto "test" _ "1abc"
      (43 :: List.replicate 64 0) (by decide) (by decide) (by decide)
  · exact bip137_flag_decoding.2.2 trivCrypto "test" _ _
      (31 :: List.replicate 64 0) FlagType.P2PKH (by decide) (by decide)
      (by decide) (Or.inl ⟨rfl, by decide⟩)

lemma tryVerificationSequence_failure_details (V : VerifierChain)
    (message signature address : String) (strict : Bool) :
    (tryVerificationSequence V message signature address strict).valid = false →
    (tryVerificationSequence V message signature address strict).details.isSome = true := by
  unfold tryVerificationSequence
  by_cases h1 : (V.bip322 message signature address).valid = true
  · simp [h1]
  · by_cases h2 : (V.bip137 message signature address).valid = true
    · simp [h1, h2]
    · by_cases h3 : (V.legacy message signature address).valid = true
      · simp [h1, h2, h3]
      · cases strict
        · by_cases h4 : (V.loose message signature address).valid = true
          · simp [h1, h2, h3, h4]
          · simp [h1, h2, h3, h4]
        · simp [h1, h2, h3]

lemma verifyMessageV_failure_details (V : VerifierChain)
    (message signature address : String) (strict : Bool) :
    (verifyMessageV V message signature address strict).valid = false →
    (verifyMessageV V message signature address strict).details.isSome = true := by
  have hseq := tryVerificationSequence_failure_details V message signature address strict
  unfold verifyMessageV verifyMessageRun
  by_cases hov : (tryVerificationSequence V message signature address strict).valid = true
  · simp [hov]
  · rw [if_neg hov]
    cases strict with
    | true =>
      intro h
      exact hseq h
    | false =>
      rw [if_neg Bool.false_ne_true]
      dsimp only
      repeat' split
      all_goals intro h
      all_goals first
        | exact hseq h
        | simp_all

lemma verifyBIP322V_failure_details (C : Crypto)
    (message signature address : String) :
    (verifyBIP322V C message signature address).valid = false →
    (verifyBIP322V C message signature address).details.isSome = true := by
  unfold verifyBIP322V
  dsimp only
  split
  all_goals intro h
  all_goals simp_all

lemma verifyBIP137V_failure_details (C : Crypto)
    (message signature address : String) :
    (verifyBIP137V C message signature address).valid = false →
    (verifyBIP137V C message signature address).details.isSome = true := by
  unfold verifyBIP137V verifyBIP137VE
  split
  case h_2 => intro h; rfl
  rename_i r heq
  intro h
  repeat' (first | split at heq | dsimp only at heq)
  all_goals first
    | exact (Except.noConfusion heq)
    | (injection heq with heq; rw [← heq] at h ⊢; simp_all)

lemma verifyLegacyV_failure_details (C : Crypto)
    (message signature address : String) :
    (verifyLegacyV C message signature address).valid = false →
    (verifyLegacyV C message signature address).details.isSome = true := by
  unfold verifyLegacyV verifyLegacyVE
  split
  case h_2 => intro h; rfl
  rename_i r heq
  intro h
  repeat' (first | split at heq | dsimp only at heq)
  all_goals first
    | exact (Except.noConfusion heq)
    | (injection heq with heq; rw [← heq] at h ⊢; simp_all)

lemma looseSearch_valid_details (C : Crypto) (messageHash sigData : List Nat)
    (flag : Nat) (address : String) (combos : List (Nat × Bool)) (r : VerificationResult) :
    looseSearch C messageHash sigData flag address combos = some r →
    r.valid = true ∧ r.details.isSome = true := by
  induction combos with
  | nil => intro h; simp [looseSearch] at h
  | cons c rest ih =>
    intro h
    unfold looseSearch at h
    obtain ⟨rid, comp⟩ := c
    split at h
    · exact ih h
    · split at h
      · injection h with h
        subst h
        exact ⟨rfl, rfl⟩
      · exact ih h

lemma verifyLooseBIP137V_failure_details (C : Crypto)
    (message signature address : String) :
    (verifyLooseBIP137V C message signature address).valid = false →
    (verifyLooseBIP137V C message signature address).details.isSome = true := by
  unfold verifyLooseBIP137V verifyLooseBIP137VE
  split
  case h_2 => intro h; rfl
  rename_i r heq
  intro h
  repeat' (first | split at heq | dsimp only at heq)
  all_goals first
    | exact (Except.noConfusion heq)
    | (injection heq with heq; rw [← heq] at h ⊢; rfl)
    | (injection heq with heq; rw [← heq] at h ⊢; rename_i hsearch;
       exact (looseSearch_valid_details C _ _ _ _ _ _ hsearch).2)

/-- C7: verification never escapes as an exception - every verifier of the
chain and the dispatcher are total functions of the (possibly throwing)
crypto primitives - and a failed verification always carries a diagnostic:
whenever the result is invalid, its details field is populated, for the
dispatcher and for each of the four chain verifiers. -/
theorem verification_failure_details :
    ∀ (C : Crypto) (strict : Bool) (message signature address : String),
      ((verifyMessageV (chainVerifiers C) message signature address strict).valid = false →
        (verifyMessageV (chainVerifiers C) message signature address strict).details.isSome = true) ∧
      ((verifyBIP322V C message signature address).valid = false →
        (verifyBIP322V C message signature address).details.isSome = true) ∧
      ((verifyBIP137V C message signature address).valid = false →
        (verifyBIP137V C message signature address).details.isSome = true) ∧
      ((verifyLegacyV C message signature address).valid = false →
        (verifyLegacyV C message signature address).details.isSome = true) ∧
      ((verifyLooseBIP137V C message signature address).valid = false →
        (verifyLooseBIP137V C message signature address).details.isSome = true) := by
  intro C strict message signature address
  exact ⟨verifyMessageV_failure_details _ _ _ _ _,
    verifyBIP322V_failure_details _ _ _ _,
    verifyBIP137V_failure_details _ _ _ _,
    verifyLegacyV_failure_details _ _ _ _,
    verifyLooseBIP137V_failure_details _ _ _ _⟩

/-- Witness for C7 at a concrete claim whose signature decodes nowhere:
every verifier fails and each failure carries a diagnostic. -/
theorem verification_failure_details_witness :
    (verifyMessageV (chainVerifiers trivCrypto) "test" "!!!" "1abc" false).valid = false ∧
    (verifyMessageV (chainVerifiers trivCrypto) "test" "!!!" "1abc" false).details.isSome = true ∧
    (verifyBIP137V trivCrypto "test" "!!!" "1abc").details.isSome = true := by
  refine ⟨by decide, ?_, ?_⟩
  · exact (verification_failure_details trivCrypto false "test" "!!!" "1abc").1 (by decide)
  · exact (verification_failure_details trivCrypto false "test" "!!!" "1abc").2.2.1 (by decide)

/-- The token policy of Scenario E (`onFail = restrict`). -/
def scenarioPolicy : Option PolicyRec :=
  some ⟨"token", some "XCP", some "1", false, some "restrict"⟩

/-- The tracked members of Scenario E, all carrying a stale policy hash. -/
def scenarioMembers : List MemberRec :=
  [⟨"admin", some "addrA", "verified", some "oldhash", 0, none, none⟩,
   ⟨"comp", some "addrC", "verified", some "oldhash", 0, none, none⟩,
   ⟨"nonc", some "addrN", "verified", some "oldhash", 0, none, none⟩]

/-- The Scenario E environment: `admin` is a chat administrator, the
compliant member's balance check passes, the noncompliant member's fails,
and the administrator's own balance check behaves as `adminPass` - which
the sweep must never consult. -/
def scenarioEnv (adminPass : Except String Bool) : SweepEnv where
  getChatMember := fun id =>
    if id = "admin" then .ok (some ⟨"administrator", none, none⟩)
    else .ok (some ⟨"member", none, none⟩)
  passesToken := fun a =>
    if a = "addrC" then .ok true
    else if a = "addrN" then .ok false
    else adminPass
  getChatMemberCount := some 3
  now := 100

/-- The enforce sweep of scenario E, parameterised by what the
administrator's own balance check would return. -/
def scenarioOut (adminPass : Except String Bool) : EnforceOut :=
  enforceRun (scenarioEnv adminPass) scenarioPolicy "newhash" scenarioMembers

/-- C1: an enforce sweep with `onFail = restrict` over tracked members
admin / compliant / noncompliant restricts only the noncompliant member,
never restricts or removes the administrator - whatever the
administrator's own compliance check would return - and stamps the current
policy hash and a fresh last-check time on both evaluated non-admin
members, pass or fail. -/
theorem enforce_scenario_restrict (adminPass : Except String Bool) :
    Effect.restrictChatMember "nonc" ∈ (scenarioOut adminPass).effects ∧
    (∀ id, Effect.restrictChatMember id ∈ (scenarioOut adminPass).effects →
      id = "nonc") ∧
    (∀ id, Effect.softKick id ∉ (scenarioOut adminPass).effects) ∧
    (∀ m' ∈ (scenarioOut adminPass).members, m'.tgId = "admin" →
      m'.state = "verified" ∧ m'.policyHash = some "newhash") ∧
    (∀ m' ∈ (scenarioOut adminPass).members, m'.tgId = "comp" →
      m'.state = "verified" ∧ m'.policyHash = some "newhash" ∧ m'.lastCheck = 100) ∧
    (∀ m' ∈ (scenarioOut adminPass).members, m'.tgId = "nonc" →
      m'.state = "restricted" ∧ m'.policyHash = some "newhash" ∧ m'.lastCheck = 100) := by
  have hout : scenarioOut adminPass =
      ⟨[⟨"admin", some "addrA", "verified", some "newhash", 100, none, none⟩,
        ⟨"comp", some "addrC", "verified", some "newhash", 100, none, none⟩,
        ⟨"nonc", some "addrN", "restricted", some "newhash", 100, none, none⟩],
       [Effect.dbUpdateCompliance "admin" none "newhash" 100,
        Effect.dbUpdateCompliance "comp" none "newhash" 100,
        Effect.restrictChatMember "nonc",
        Effect.dbUpdateCompliance "nonc" (some "restricted") "newhash" 100,
        Effect.sendDM "nonc"],
       1, 2, 0, 2,
       ["User (restricted - insufficient balance)"]⟩ := rfl
  rw [hout]
  refine ⟨by simp, ?_, ?_, ?_, ?_, ?_⟩
  · intro id hid
    simpa using hid
  · intro id hid
    simp at hid
  · intro m' hm' htg
    simp only [List.mem_cons, List.not_mem_nil, or_false] at hm'
    rcases hm' with h | h | h <;> subst h <;> simp_all
  · intro m' hm' htg
    simp only [List.mem_cons, List.not_mem_nil, or_false] at hm'
    rcases hm' with h | h | h <;> subst h <;> simp_all
  · intro m' hm' htg
    simp only [List.mem_cons, List.not_mem_nil, or_false] at hm'
    rcases hm' with h | h | h <;> subst h <;> simp_all

/-- Witness for C1: even when the administrator's own balance check would
throw, the sweep restricts the noncompliant member and never the
administrator. -/
theorem enforce_scenario_restrict_witness :
    Effect.restrictChatMember "nonc" ∈
      (enforceRun (scenarioEnv (Except.error "down")) scenarioPolicy "newhash"
        scenarioMembers).effects ∧
    Effect.restrictChatMember "admin" ∉
      (enforceRun (scenarioEnv (Except.error "down")) scenarioPolicy "newhash"
        scenarioMembers).effects := by
  refine ⟨(enforce_scenario_restrict (Except.error "down")).1, ?_⟩
  intro hmem
  have := (enforce_scenario_restrict (Except.error "down")).2.1 "admin" hmem
  simp at this

lemma recheckFold_members_effects (env : SweepEnv) (policy : Option PolicyRec)
    (H : String) (acc : RecheckOut) (m : MemberRec) :
    (recheckFold env policy H acc m).members
      = acc.members ++ [(recheckStep env policy H m).1] ∧
    (recheckFold env policy H acc m).effects
      = acc.effects ++ (recheckStep env policy H m).2.1 := by
  unfold recheckFold
  cases h : (recheckStep env policy H m).2.2 <;> simp [h]

lemma recheckRun_foldl (env : SweepEnv) (policy : Option PolicyRec) (H : String)
    (members : List MemberRec) (acc : RecheckOut) :
    ((members.foldl (recheckFold env policy H) acc).members
      = acc.members ++ members.map (fun m => (recheckStep env policy H m).1)) ∧
    ((members.foldl (recheckFold env policy H) acc).effects
      = acc.effects ++ members.flatMap (fun m => (recheckStep env policy H m).2.1)) := by
  induction members generalizing acc with
  | nil => simp
  | cons m rest ih =>
    simp only [List.foldl_cons, List.map_cons, List.flatMap_cons]
    constructor
    · rw [(ih _).1, (recheckFold_members_effects env policy H acc m).1]
      simp
    · rw [(ih _).2, (recheckFold_members_effects env policy H acc m).2]
      simp

lemma recheckStep_preserves (env : SweepEnv) (policy : Option PolicyRec)
    (H : String) (m : MemberRec) :
    ((recheckStep env policy H m).1).tgId = m.tgId ∧
    ((recheckStep env policy H m).1).address = m.address ∧
    ((recheckStep env policy H m).1).state = m.state ∧
    ((recheckStep env policy H m).1).policyHash = m.policyHash ∧
    ((recheckStep env policy H m).1).lastCheck = m.lastCheck := by
  unfold recheckStep
  dsimp only
  repeat' split
  all_goals simp_all

lemma recheckStep_effects_shape (env : SweepEnv) (policy : Option PolicyRec)
    (H : String) (m : MemberRec) :
    ∀ e ∈ (recheckStep env policy H m).2.1,
      ∃ id u n, e = Effect.dbUpdateNames id u n := by
  unfold recheckStep
  dsimp only
  repeat' split
  all_goals intro e he
  all_goals simp_all

/-- C9, counterexample: the claim that a recheck mutates no field of any
member record fails on a member whose cached Telegram username is stale -
the loop refreshes `tgUsername`/`tgName` in the database. -/
theorem recheck_readonly_counterexample :
    (recheckRun
      { getChatMember := fun _ => .ok (some ⟨"member", some "new", none⟩)
        passesToken := fun _ => .ok true
        getChatMemberCount := some 1
        now := 5 }
      none "h"
      [⟨"u1", some "addr", "verified", some "h", 0, some "old", none⟩]).members ≠
      [⟨"u1", some "addr", "verified", some "h", 0, some "old", none⟩] := by
  decide

/-- C9, amended: a recheck sweep reports counts only - it sends no
restrict, kick, DM, decline or delete effect, and leaves every member's
identity and compliance fields (tgId, address, state, policyHash,
lastCheck) unchanged; its only writes refresh the cached display fields
tgUsername/tgName. -/
theorem recheck_readonly_amended (env : SweepEnv) (policy : Option PolicyRec)
    (H : String) (members : List MemberRec) :
    (∀ e ∈ (recheckRun env policy H members).effects,
      ∃ id u n, e = Effect.dbUpdateNames id u n) ∧
    List.Forall₂
      (fun m m' => m'.tgId = m.tgId ∧ m'.address = m.address ∧
        m'.state = m.state ∧ m'.policyHash = m.policyHash ∧
        m'.lastCheck = m.lastCheck)
      members (recheckRun env policy H members).members := by
  unfold recheckRun
  constructor
  · intro e he
    rw [(recheckRun_foldl env policy H members _).2] at he
    simp only [List.nil_append, List.mem_flatMap] at he
    obtain ⟨m, _, hme⟩ := he
    exact recheckStep_effects_shape env policy H m e hme
  · rw [(recheckRun_foldl env policy H members _).1]
    simp only [List.nil_append]
    rw [List.forall₂_map_right_iff]
    rw [List.forall₂_same]
    intro m _
    have h := recheckStep_preserves env policy H m
    exact ⟨h.1, h.2.1, h.2.2.1, h.2.2.2.1, h.2.2.2.2⟩

/-- Witness for C9's amended theorem at a concrete sweep: the recheck of
the counterexample member emits only a cached-name refresh and keeps its
compliance fields. -/
theorem recheck_readonly_amended_witness :
    (∀ e ∈ (recheckRun
      { getChatMember := fun _ => .ok (some ⟨"member", some "new", none⟩)
        passesToken := fun _ => .ok true
        getChatMemberCount := some 1
        now := 5 }
      none "h"
      [⟨"u1", some "addr", "verified", some "h", 0, some "old", none⟩]).effects,
      ∃ id u n, e = Effect.dbUpdateNames id u n) ∧
    ((recheckRun
      { getChatMember := fun _ => .ok (some ⟨"member", some "new", none⟩)
        passesToken := fun _ => .ok true
        getChatMemberCount := some 1
        now := 5 }
      none "h"
      [⟨"u1", some "addr", "verified", some "h", 0, some "old", none⟩]).members.map
        (·.policyHash)) = [some "h"] := by
  refine ⟨(recheck_readonly_amended _ _ _ _).1, ?_⟩
  decide

/-- The retry schedule asserted by the amended C2, written from the spec's
(corrected) words: one dispatcher pass per route-level variant - the
original message, then the message with `' '`, `'\n'`, `'\r\n'` appended
(each skipped when the message already ends with that suffix) - where a
dispatcher pass attempts the inputs once and, when it has a normalization
to apply (unifying Windows line endings in the message and/or re-encoding
the signature - never trimming the message), once more with the normalized
pair. -/
def dispatcherAttempts (message signature : String) : List (String × String) :=
  let mv := validateMessage message
  let sv := detectAndNormalizeSignature signature
  let hasMsg : Bool :=
    match mv.normalized with
    | some n => decide (n ≠ message)
    | none => false
  let hasSig : Bool := decide (sv.normalized ≠ signature) && sv.valid
  (message, signature) ::
    (if hasMsg || hasSig then
      [(mv.normalized.getD message, if hasSig then sv.normalized else signature)]
    else [])

/-- The full route-level retry schedule asserted by the amended C2. -/
def routeAttempts (message signature : String) : List (String × String) :=
  dispatcherAttempts message signature ++
  (if jsEndsWith message " " then [] else dispatcherAttempts (message ++ " ") signature) ++
  (if jsEndsWith message "\n" then [] else dispatcherAttempts (message ++ "\n") signature) ++
  (if jsEndsWith message "\r\n" then [] else dispatcherAttempts (message ++ "\r\n") signature)

lemma tryVerificationSequence_allfail (V : VerifierChain)
    (hb : ∀ m s a, (V.bip322 m s a).valid = false)
    (h7 : ∀ m s a, (V.bip137 m s a).valid = false)
    (hl : ∀ m s a, (V.legacy m s a).valid = false)
    (ho : ∀ m s a, (V.loose m s a).valid = false)
    (m s a : String) (strict : Bool) :
    (tryVerificationSequence V m s a strict).valid = false := by
  unfold tryVerificationSequence
  simp only [hb, h7, hl, ho, Bool.false_eq_true, if_false]
  cases strict <;> simp

lemma verifyMessageRun_allfail (V : VerifierChain)
    (hb : ∀ m s a, (V.bip322 m s a).valid = false)
    (h7 : ∀ m s a, (V.bip137 m s a).valid = false)
    (hl : ∀ m s a, (V.legacy m s a).valid = false)
    (ho : ∀ m s a, (V.loose m s a).valid = false)
    (m s a : String) (strict : Bool) :
    (verifyMessageRun V m s a strict).1.valid = false ∧
    (verifyMessageRun V m s a strict).2 =
      (if strict then [(m, s)] else dispatcherAttempts m s) := by
  have hseq := tryVerificationSequence_allfail V hb h7 hl ho
  unfold verifyMessageRun
  rw [if_neg (by simp [hseq])]
  cases strict with
  | true => exact ⟨hseq m s a true, rfl⟩
  | false =>
    rw [if_neg Bool.false_ne_true]
    unfold dispatcherAttempts
    dsimp only
    split
    · rw [if_neg (by simp [hseq])]
      exact ⟨hseq m s a false, rfl⟩
    · exact ⟨hseq m s a false, rfl⟩

lemma postVerifyRun_allfail (V : VerifierChain)
    (hb : ∀ m s a, (V.bip322 m s a).valid = false)
    (h7 : ∀ m s a, (V.bip137 m s a).valid = false)
    (hl : ∀ m s a, (V.legacy m s a).valid = false)
    (ho : ∀ m s a, (V.loose m s a).valid = false)
    (m s a : String) :
    (postVerifyRun V m s a).2 = routeAttempts m s := by
  have hv := fun m' => (verifyMessageRun_allfail V hb h7 hl ho m' s a false).1
  have ha := fun m' => (verifyMessageRun_allfail V hb h7 hl ho m' s a false).2
  unfold postVerifyRun routeAttempts
  by_cases e1 : jsEndsWith m " " = true <;>
    by_cases e2 : jsEndsWith m "\n" = true <;>
      by_cases e3 : jsEndsWith m "\r\n" = true <;>
        simp [e1, e2, e3, hv, ha]

/-- C2 amended: in strict mode the dispatcher runs the verification
sequence exactly once, on the original inputs; in permissive mode, when
the whole chain keeps failing, the attempted inputs are exactly the
`routeAttempts` schedule - the original message plus the trailing-space /
`\n` / `\r\n` variants (each skipped when the message already ends with
it), each paired once with the original inputs and once more with the
dispatcher's normalization (Windows line-ending unification of the message
and/or signature re-encoding); the message is never trimmed. -/
theorem verify_retry_schedule (V : VerifierChain)
    (hb : ∀ m s a, (V.bip322 m s a).valid = false)
    (h7 : ∀ m s a, (V.bip137 m s a).valid = false)
    (hl : ∀ m s a, (V.legacy m s a).valid = false)
    (ho : ∀ m s a, (V.loose m s a).valid = false)
    (message signature address : String) :
    (verifyMessageRun V message signature address true).2 = [(message, signature)] ∧
    (verifyMessageRun V message signature address false).2 =
      dispatcherAttempts message signature ∧
    (postVerifyRun V message signature address).2 =
      routeAttempts message signature := by
  refine ⟨?_, ?_, postVerifyRun_allfail V hb h7 hl ho message signature address⟩
  · simpa using (verifyMessageRun_allfail V hb h7 hl ho message signature address true).2
  · simpa using (verifyMessageRun_allfail V hb h7 hl ho message signature address false).2

/-- C2 counterexample: for the claim's premise - a message on which every
verifier of the real chain fails with the original inputs - the permissive
retries never attempt the trimmed message, although the claim's
normalization list includes trimming and trimming would change this
message. -/
theorem verify_retry_trim_counterexample :
    (jsTrim " test" ≠ " test") ∧
    ((chainVerifiers trivCrypto).bip322 " test" "ab+/" "1abc").valid = false ∧
    ((chainVerifiers trivCrypto).bip137 " test" "ab+/" "1abc").valid = false ∧
    ((chainVerifiers trivCrypto).legacy " test" "ab+/" "1abc").valid = false ∧
    ((chainVerifiers trivCrypto).loose " test" "ab+/" "1abc").valid = false ∧
    (∀ p ∈ (postVerifyRun (chainVerifiers trivCrypto) " test" "ab+/" "1abc").2,
      p.1 ≠ jsTrim " test") := by
  refine ⟨by decide, by decide, by decide, by decide, by decide, by decide⟩

/-- Witness for C2's amended theorem on a concrete Windows-line-ending
message over an always-failing chain: the schedule contains exactly the
append variants and their line-ending-unified twins. -/
theorem verify_retry_schedule_witness :
    (verifyMessageRun constFailChain "a\r\nb" "ab+/" "x" true).2 =
      [("a\r\nb", "ab+/")] ∧
    (postVerifyRun constFailChain "a\r\nb" "ab+/" "x").2 =
      routeAttempts "a\r\nb" "ab+/" ∧
    routeAttempts "a\r\nb" "ab+/" =
      [("a\r\nb", "ab+/"), ("a\nb", "ab+/"),
       ("a\r\nb ", "ab+/"), ("a\nb ", "ab+/"),
       ("a\r\nb\n", "ab+/"), ("a\nb\n", "ab+/"),
       ("a\r\nb\r\n", "ab+/"), ("a\nb\n", "ab+/")] := by
  refine ⟨?_, ?_, by decide⟩
  · exact (verify_retry_schedule constFailChain (fun _ _ _ => rfl) (fun _ _ _ => rfl)
      (fun _ _ _ => rfl) (fun _ _ _ => rfl) "a\r\nb" "ab+/" "x").1
  · exact (verify_retry_schedule constFailChain (fun _ _ _ => rfl) (fun _ _ _ => rfl)
      (fun _ _ _ => rfl) (fun _ _ _ => rfl) "a\r\nb" "ab+/" "x").2.2

/-- C8 counterexample: in the BIP-322 Simple (Taproot) path, with a
Schnorr check that accepts and a Taproot derivation returning
`bc1pabc`, the claimed address `bc1pABC` - equal to the derived address
after lowercasing both sides - is still rejected: `signature.ts` compares
the Simple path's addresses with `===`, not case-insensitively. -/
theorem simple_comparison_counterexample :
    (jsToLower "bc1pabc" = jsToLower "bc1pABC") ∧
    verifyBIP322Simple
      { trivCrypto with
        schnorrVerify := fun _ _ _ => true
        p2tr := fun _ => .ok "bc1pabc" }
      "msg"
      ("tr:" ++ String.mk (List.replicate 128 '0') ++ ":" ++
        String.mk (List.replicate 64 '0'))
      "bc1pABC" = Except.ok false := by
  refine ⟨by decide, ?_⟩
  set_option maxRecDepth 10000 in rfl

lemma hexDecode?_no_colon {s : String} {b : List Nat}
    (h : hexDecode? s = some b) : ∀ c ∈ s.data, c ≠ ':' := by
  intro c hc
  unfold hexDecode? at h
  by_cases hall : s.data.all (fun c => decide (('0' ≤ c ∧ c ≤ '9') ∨ ('a' ≤ c ∧ c ≤ 'f'))) = true
  · have := List.all_eq_true.mp hall c hc
    intro hcol
    subst hcol
    exact absurd this (by decide)
  · rw [if_neg (by simpa using hall)] at h
    exact absurd h (by simp)

lemma looseSearch_addr_invariant (C : Crypto) (mh sd : List Nat) (flag : Nat)
    (a b : String) (hab : jsToLower a = jsToLower b) :
    ∀ combos, looseSearch C mh sd flag a combos = looseSearch C mh sd flag b combos := by
  intro combos
  induction combos with
  | nil => rfl
  | cons c rest ih =>
    obtain ⟨rid, comp⟩ := c
    unfold looseSearch
    simp only [hab, ih]

lemma mkData (s : String) : String.mk s.data = s := rfl

lemma verifyBIP137V_lowercase_compare (C : Crypto) (m s a : String)
    (bs : List Nat) (T : FlagType) (mh pk : List Nat) (da : String)
    (hdec : base64Decode? s = some bs) (hlen : bs.length = 65)
    (hT : (parseSignatureFlag (bs.getD 0 0)).addressType = some T)
    (hT1 : T = .P2PKH → getAddressTypeU a = .P2PKH)
    (hT2 : T = .P2SHP2WPKH → getAddressTypeU a = .P2SH)
    (hT3 : T = .P2WPKH → getAddressTypeU a = .P2WPKH)
    (hmh : hashMessageU C m = .ok mh)
    (hrec : ∀ rid comp, C.recoverU (bs.drop 1) mh rid comp = some pk)
    (hder : (match T with
      | FlagType.P2PKH => (C.p2pkh pk).map (·.1)
      | FlagType.P2SHP2WPKH => (C.p2shP2wpkh pk).map (·.1)
      | FlagType.P2WPKH => (C.p2wpkh pk).map (·.1)) = Except.ok da) :
    ((verifyBIP137V C m s a).valid = true ↔ jsToLower da = jsToLower a) := by
  unfold verifyBIP137V verifyBIP137VE
  cases T with
  | P2PKH =>
    have h1 := hT1 rfl
    have hd : (C.p2pkh pk).map (·.1) = Except.ok da := hder
    simp only [hdec, hT, hmh, hrec, h1, hd]
    rw [if_neg (by omega), if_neg (by simp), if_neg (by simp), if_neg (by simp)]
    simp
  | P2SHP2WPKH =>
    have h1 := hT2 rfl
    have hd : (C.p2shP2wpkh pk).map (·.1) = Except.ok da := hder
    simp only [hdec, hT, hmh, hrec, h1, hd]
    rw [if_neg (by omega), if_neg (by simp), if_neg (by simp), if_neg (by simp)]
    simp
  | P2WPKH =>
    have h1 := hT3 rfl
    have hd : (C.p2wpkh pk).map (·.1) = Except.ok da := hder
    simp only [hdec, hT, hmh, hrec, h1, hd]
    rw [if_neg (by omega), if_neg (by simp), if_neg (by simp), if_neg (by simp)]
    simp

lemma verifyLegacyV_lowercase_compare (C : Crypto) (m s a : String)
    (bs : List Nat) (mh pk : List Nat) (da : String)
    (ha : getAddressTypeU a = .P2PKH)
    (hdec : base64Decode? s = some bs) (hlen : bs.length = 65)
    (hf1 : 27 ≤ bs.getD 0 0) (hf2 : bs.getD 0 0 ≤ 34)
    (hmh : hashMessageU C m = .ok mh)
    (hrec : ∀ rid comp, C.recoverU (bs.drop 1) mh rid comp = some pk)
    (hder : (C.p2pkh pk).map (·.1) = Except.ok da) :
    ((verifyLegacyV C m s a).valid = true ↔ jsToLower da = jsToLower a) := by
  unfold verifyLegacyV verifyLegacyVE
  rw [if_neg (by simp [ha])]
  simp only [hdec, hlen, hmh, hrec, hder]
  rw [if_neg (by omega), if_neg (by omega)]
  simp [hrec, hder]

lemma verifyBIP322Full_lowercase_gate (C : Crypto) (m s a : String)
    (bs : List Nat) (stack : List (List Nat)) (pair : String × List Nat)
    (hdec : base64Decode? s = some bs)
    (hws : parseWitnessStack bs = some stack)
    (hlen : 2 ≤ stack.length)
    (hdisp : (if getAddressTypeS a = AddrType.P2PKH then
        (C.p2pkh (stack.getD 1 [])).map some
      else if getAddressTypeS a = AddrType.P2WPKH then
        (C.p2wpkh (stack.getD 1 [])).map some
      else if getAddressTypeS a = AddrType.P2SH then
        (C.p2shP2wpkh (stack.getD 1 [])).map some
      else Except.ok none) = Except.ok (some pair))
    (hne : jsToLower pair.1 ≠ jsToLower a) :
    verifyBIP322Full C m s a = false := by
  unfold verifyBIP322Full verifyBIP322FullE
  simp only [hdec, hws]
  rw [if_neg (by omega)]
  split
  · rename_i b heq
    simp only [hdisp] at heq
    split at heq
    · exact (Except.ok.inj heq).symm
    · rw [if_pos hne] at heq
      exact (Except.ok.inj heq).symm
  · rfl

lemma verifyLooseBIP137V_addr_case_insensitive (C : Crypto) (m s a b : String)
    (hab : jsToLower a = jsToLower b) :
    verifyLooseBIP137V C m s a = verifyLooseBIP137V C m s b := by
  unfold verifyLooseBIP137V verifyLooseBIP137VE
  cases hdec : base64Decode? s with
  | none => rfl
  | some bs =>
    dsimp only
    by_cases hlen : bs.length = 65
    · rw [if_neg (by omega), if_neg (by omega)]
      cases hmh : hashMessageU C m with
      | error e => rfl
      | ok mh =>
        dsimp only
        rw [looseSearch_addr_invariant C mh (List.drop 1 bs) (bs.getD 0 0) a b hab
          looseCombos]
    · rw [if_pos (by omega), if_pos (by omega)]

lemma verifyBIP322Simple_exact_compare (C : Crypto)
    (m sigHex pubHex a da : String) (sb pb : List Nat)
    (ha : jsStartsWith a "bc1p" = true)
    (hsl : sigHex.length = 128) (hpl : pubHex.length = 64)
    (hsd : hexDecode? sigHex = some sb) (hpd : hexDecode? pubHex = some pb)
    (hsch : C.schnorrVerify sb (bip322MessageHash C m) pb = true)
    (htr : C.p2tr pb = Except.ok da) :
    verifyBIP322Simple C m ("tr:" ++ sigHex ++ ":" ++ pubHex) a =
      Except.ok (decide (da = a)) := by
  have hscolon := hexDecode?_no_colon hsd
  have hpcolon := hexDecode?_no_colon hpd
  unfold verifyBIP322Simple
  have hstart : jsStartsWith ("tr:" ++ sigHex ++ ":" ++ pubHex) "tr:" = true := by
    simp [jsStartsWith, isPrefixB]
  rw [if_neg (by simp [hstart])]
  rw [if_neg (by simp [ha])]
  have hdrop : ("tr:" ++ sigHex ++ ":" ++ pubHex).data.drop 3 =
      sigHex.data ++ ':' :: pubHex.data := by
    simp
  rw [hdrop, splitChar_append ':' sigHex.data (pubHex.data) hscolon,
    splitChar_no_sep ':' pubHex.data hpcolon]
  have hsl' : sigHex.data.length = 128 := hsl
  have hpl' : pubHex.data.length = 64 := hpl
  dsimp only
  rw [if_neg (show ¬sigHex.data.length = 127 by omega)]
  rw [if_neg (show ¬(sigHex.data.length ≠ 128 ∨ pubHex.data.length ≠ 64) by omega)]
  rw [mkData, mkData, hsd, hpd]
  dsimp only
  rw [if_neg (show ¬¬C.schnorrVerify sb (bip322MessageHash C m) pb = true by
    simp [hsch])]
  rw [htr]

/-- A `Crypto` whose primitives succeed with fixed values, exercising the
address-comparison branches of every verification path. -/
def witCrypto : Crypto :=
  { trivCrypto with
      recoverU := fun _ _ _ _ => some [2]
      p2pkh := fun _ => Except.ok ("1Abc", [])
      schnorrVerify := fun _ _ _ => true
      p2tr := fun _ => Except.ok "bc1pXYZ" }

/-- C8 (amended): how each verification path compares the derived address
with the claimed one.  Spec-BIP-137 and Legacy accept exactly when the two
agree up to `toLowerCase()`; Loose BIP-137 cannot distinguish claimed
addresses that agree up to `toLowerCase()`; BIP-322 Full rejects whenever
the derived address differs from the claimed one up to `toLowerCase()`; but
BIP-322 Simple (the `tr:` Taproot path of `signature.ts`) compares the
derived address with `===`, case-SENSITIVELY. -/
theorem address_comparison_modes :
    (∀ (C : Crypto) (m s a : String) (bs : List Nat) (T : FlagType)
        (mh pk : List Nat) (da : String),
      base64Decode? s = some bs → bs.length = 65 →
      (parseSignatureFlag (bs.getD 0 0)).addressType = some T →
      (T = .P2PKH → getAddressTypeU a = .P2PKH) →
      (T = .P2SHP2WPKH → getAddressTypeU a = .P2SH) →
      (T = .P2WPKH → getAddressTypeU a = .P2WPKH) →
      hashMessageU C m = .ok mh →
      (∀ rid comp, C.recoverU (bs.drop 1) mh rid comp = some pk) →
      (match T with
        | FlagType.P2PKH => (C.p2pkh pk).map (·.1)
        | FlagType.P2SHP2WPKH => (C.p2shP2wpkh pk).map (·.1)
        | FlagType.P2WPKH => (C.p2wpkh pk).map (·.1)) = Except.ok da →
      ((verifyBIP137V C m s a).valid = true ↔ jsToLower da = jsToLower a)) ∧
    (∀ (C : Crypto) (m s a : String) (bs mh pk : List Nat) (da : String),
      getAddressTypeU a = .P2PKH →
      base64Decode? s = some bs → bs.length = 65 →
      27 ≤ bs.getD 0 0 → bs.getD 0 0 ≤ 34 →
      hashMessageU C m = .ok mh →
      (∀ rid comp, C.recoverU (bs.drop 1) mh rid comp = some pk) →
      (C.p2pkh pk).map (·.1) = Except.ok da →
      ((verifyLegacyV C m s a).valid = true ↔ jsToLower da = jsToLower a)) ∧
    (∀ (C : Crypto) (m s a b : String), jsToLower a = jsToLower b →
      verifyLooseBIP137V C m s a = verifyLooseBIP137V C m s b) ∧
    (∀ (C : Crypto) (m s a : String) (bs : List Nat)
        (stack : List (List Nat)) (pair : String × List Nat),
      base64Decode? s = some bs →
      parseWitnessStack bs = some stack →
      2 ≤ stack.length →
      (if getAddressTypeS a = AddrType.P2PKH then
          (C.p2pkh (stack.getD 1 [])).map some
        else if getAddressTypeS a = AddrType.P2WPKH then
          (C.p2wpkh (stack.getD 1 [])).map some
        else if getAddressTypeS a = AddrType.P2SH then
          (C.p2shP2wpkh (stack.getD 1 [])).map some
        else Except.ok none) = Except.ok (some pair) →
      jsToLower pair.1 ≠ jsToLower a →
      verifyBIP322Full C m s a = false) ∧
    (∀ (C : Crypto) (m sigHex pubHex a da : String) (sb pb : List Nat),
      jsStartsWith a "bc1p" = true →
      sigHex.length = 128 → pubHex.length = 64 →
      hexDecode? sigHex = some sb → hexDecode? pubHex = some pb →
      C.schnorrVerify sb (bip322MessageHash C m) pb = true →
      C.p2tr pb = Except.ok da →
      verifyBIP322Simple C m ("tr:" ++ sigHex ++ ":" ++ pubHex) a =
        Except.ok (decide (da = a))) :=
  ⟨fun C m s a bs T mh pk da hdec hlen hT hT1 hT2 hT3 hmh hrec hder =>
    verifyBIP137V_lowercase_compare C m s a bs T mh pk da hdec hlen hT hT1 hT2
      hT3 hmh hrec hder,
   fun C m s a bs mh pk da ha hdec hlen hf1 hf2 hmh hrec hder =>
    verifyLegacyV_lowercase_compare C m s a bs mh pk da ha hdec hlen hf1 hf2
      hmh hrec hder,
   fun C m s a b hab => verifyLooseBIP137V_addr_case_insensitive C m s a b hab,
   fun C m s a bs stack pair hdec hws hlen hdisp hne =>
    verifyBIP322Full_lowercase_gate C m s a bs stack pair hdec hws hlen hdisp
      hne,
   fun C m sigHex pubHex a da sb pb ha hsl hpl hsd hpd hsch htr =>
    verifyBIP322Simple_exact_compare C m sigHex pubHex a da sb pb ha hsl hpl
      hsd hpd hsch htr⟩

set_option maxRecDepth 10000 in
/-- Concrete instantiation of every part of the address-comparison
characterisation under `witCrypto`. -/
theorem address_comparison_modes_witness :
    ((verifyBIP137V witCrypto "msg"
        "HwAAAAAAAAAAAAAAAAAAAAAAAAAAAAAAAAAAAAAAAAAAAAAAAAAAAAAAAAAAAAAAAAAAAAAAAAAAAAAAAAAAAAA="
        "1abc").valid = true ↔ jsToLower "1Abc" = jsToLower "1abc") ∧
    ((verifyLegacyV witCrypto "msg"
        "HwAAAAAAAAAAAAAAAAAAAAAAAAAAAAAAAAAAAAAAAAAAAAAAAAAAAAAAAAAAAAAAAAAAAAAAAAAAAAAAAAAAAAA="
        "1abc").valid = true ↔ jsToLower "1Abc" = jsToLower "1abc") ∧
    verifyLooseBIP137V witCrypto "m" "!!!" "x" =
      verifyLooseBIP137V witCrypto "m" "!!!" "X" ∧
    verifyBIP322Full witCrypto "m" "AgEJAQc=" "1xyz" = false ∧
    verifyBIP322Simple witCrypto "m"
      ("tr:" ++ String.mk (List.replicate 128 '0') ++ ":" ++
        String.mk (List.replicate 64 '0')) "bc1pXYZ" =
      Except.ok (decide ("bc1pXYZ" = "bc1pXYZ")) :=
  ⟨address_comparison_modes.1 witCrypto "msg"
      "HwAAAAAAAAAAAAAAAAAAAAAAAAAAAAAAAAAAAAAAAAAAAAAAAAAAAAAAAAAAAAAAAAAAAAAAAAAAAAAAAAAAAAA="
      "1abc" (31 :: List.replicate 64 0) FlagType.P2PKH [] [2] "1Abc"
      (by decide) (by decide) (by decide) (by decide) (by decide) (by decide)
      rfl (fun _ _ => rfl) rfl,
   address_comparison_modes.2.1 witCrypto "msg"
      "HwAAAAAAAAAAAAAAAAAAAAAAAAAAAAAAAAAAAAAAAAAAAAAAAAAAAAAAAAAAAAAAAAAAAAAAAAAAAAAAAAAAAAA="
      "1abc" (31 :: List.replicate 64 0) [] [2] "1Abc"
      (by decide) (by decide) (by decide) (by decide) (by decide)
      rfl (fun _ _ => rfl) rfl,
   address_comparison_modes.2.2.1 witCrypto "m" "!!!" "x" "X" (by decide),
   address_comparison_modes.2.2.2.1 witCrypto "m" "AgEJAQc=" "1xyz"
      [2, 1, 9, 1, 7] [[9], [7]] ("1Abc", [])
      (by decide) (by decide) (by decide) rfl (by decide),
   address_comparison_modes.2.2.2.2 witCrypto "m"
      (String.mk (List.replicate 128 '0')) (String.mk (List.replicate 64 '0'))
      "bc1pXYZ" "bc1pXYZ" (List.replicate 64 0) (List.replicate 32 0)
      (by decide) (by decide) (by decide) (by decide) (by decide) rfl rfl⟩

end Groupbot
